import Mathlib

/-!
Verification of the eXeLearning style converter's core text transformations.

This development shallowly embeds the text-processing core of the
`exelearning-style-converter` repository and proves properties of it:

* `src/src/analyzer.js` — `StyleAnalyzer.analyzeJavaScript`,
  `determineComplexity`, `selectTemplate` (feature classification and
  complexity/template selection);
* `src/src/config-updater.js` — `JavaScriptTransformer` (`extractFunction`,
  `extractCommonInit`, `extractCharacterManagement`, `extractH5PResizer`,
  `extractPhaseManagement`, `extractCustomCode`, `integrateCustomCode`,
  `transform`) and `ConfigUpdater` (`extractMetadata`, `generateNewConfig`,
  `escapeXml`);
* `src/web/src/browser-converter.js` — `BrowserStyleConverter.analyze`.

Texts are modelled as `List Char`.  JavaScript regular expressions are
modelled by a small backtracking matcher (`Rx` / `mrun`) whose alternation
order mirrors the ECMAScript semantics: alternation prefers the left branch,
greedy quantifiers try longer iterations first, lazy quantifiers try shorter
first, a quantifier iteration must consume at least one character, and the
`$` assertion (in a non-multiline pattern) succeeds only at the end of the
input.  `\s` is modelled by the ASCII whitespace characters and `\w` by
`[A-Za-z0-9_]`; the sources only ever feed ASCII-relevant probes to these
classes.  The matcher is driven by an explicit fuel argument; the fuel
supplied by `rxFuel` is far larger than the call depth any of the embedded
patterns can reach on a given input, and all universal theorems proved about
the matcher hold for every fuel value.
-/

namespace StyleConv

/-- ASCII whitespace, the relevant fragment of the ECMAScript `\s` class. -/
def isJsSpace (c : Char) : Bool :=
  c = ' ' || c = '\t' || c = '\n' || c = '\r' || c = '\x0b' || c = '\x0c'

/-- The ECMAScript `\w` class `[A-Za-z0-9_]`. -/
def isWordChar (c : Char) : Bool :=
  ('a' ≤ c && c ≤ 'z') || ('A' ≤ c && c ≤ 'Z') || ('0' ≤ c && c ≤ '9') || c = '_'

/-- JavaScript `String.prototype.includes`: substring containment. -/
def jsIncludes (hay sub : List Char) : Bool :=
  decide (sub <:+: hay)

/-- JavaScript `String.prototype.split('\n')`. -/
def splitNl : List Char → List (List Char)
  | [] => [[]]
  | c :: rest =>
    if c = '\n' then [] :: splitNl rest
    else
      match splitNl rest with
      | l :: ls => (c :: l) :: ls
      | [] => [[c]]

/-- JavaScript `String.prototype.trim` (whitespace stripped from both ends). -/
def jsTrim (l : List Char) : List Char :=
  ((l.dropWhile isJsSpace).reverse.dropWhile isJsSpace).reverse

/-! ## A backtracking regular-expression matcher -/

/-- Abstract syntax for the regular expressions the sources use.  Capture
groups have no operational effect on match positions and are dropped. -/
inductive Rx where
  | eps : Rx
  | lit (c : Char) : Rx
  | cls (p : Char → Bool) : Rx
  | seq (a b : Rx) : Rx
  | alt (a b : Rx) : Rx
  | opt (a : Rx) : Rx
  | starG (a : Rx) : Rx
  | starL (a : Rx) : Rx
  | eos : Rx
deriving Inhabited

/-- Sequence a list of literal characters. -/
def rstr (cs : List Char) : Rx :=
  cs.foldr (fun c r => Rx.seq (Rx.lit c) r) Rx.eps

/-- Character class `[\s\S]` — any character. -/
def rxAny : Rx := Rx.cls (fun _ => true)

/-- Greedy `\s*`. -/
def wsStar : Rx := Rx.starG (Rx.cls isJsSpace)

/-- Greedy `\s+`. -/
def wsPlus : Rx := Rx.seq (Rx.cls isJsSpace) wsStar

/-- The continuation-passing backtracking matcher.  `mrun fuel r s k`
attempts to match `r` against a prefix of `s`; on success of a candidate
split it calls the continuation `k` on the rest, and backtracks to the next
candidate when `k` returns `none`.  Candidate order follows ECMAScript:
left alternative first, greedy star iterates before exiting, lazy star
exits before iterating, and star iterations must consume input. -/
def mrun : Nat → Rx → List Char → (List Char → Option (List Char)) → Option (List Char)
  | 0, _, _, _ => none
  | _ + 1, Rx.eps, s, k => k s
  | _ + 1, Rx.lit c, s, k =>
    match s with
    | [] => none
    | x :: rest => if x = c then k rest else none
  | _ + 1, Rx.cls p, s, k =>
    match s with
    | [] => none
    | x :: rest => if p x then k rest else none
  | f + 1, Rx.seq a b, s, k => mrun f a s (fun s' => mrun f b s' k)
  | f + 1, Rx.alt a b, s, k =>
    (mrun f a s k).orElse (fun _ => mrun f b s k)
  | f + 1, Rx.opt a, s, k =>
    (mrun f a s k).orElse (fun _ => k s)
  | f + 1, Rx.starG a, s, k =>
    (mrun f a s (fun s' =>
      if s'.length < s.length then mrun f (Rx.starG a) s' k else none)).orElse
      (fun _ => k s)
  | f + 1, Rx.starL a, s, k =>
    (k s).orElse (fun _ =>
      mrun f a s (fun s' =>
        if s'.length < s.length then mrun f (Rx.starL a) s' k else none))
  | _ + 1, Rx.eos, s, k =>
    match s with
    | [] => k []
    | _ :: _ => none

/-- Fuel that is amply sufficient for every pattern in the sources. -/
def rxFuel (s : List Char) : Nat :=
  (s.length + 2) * 256

/-- Length of the match of `r` at the very start of `s`, if any. -/
def rxMatchLen (r : Rx) (s : List Char) : Option Nat :=
  match mrun (rxFuel s) r s (fun rest => some rest) with
  | some rest => some (s.length - rest.length)
  | none => none

/-- Leftmost match of `r` in `s` starting the position scan at index `i`:
returns `(index, length)` of the first match, like JavaScript
`String.prototype.match` on a non-global regex (`.index`, `[0].length`). -/
def rxSearchAux (r : Rx) : List Char → Nat → Option (Nat × Nat)
  | [], i =>
    match rxMatchLen r [] with
    | some n => some (i, n)
    | none => none
  | c :: t, i =>
    match rxMatchLen r (c :: t) with
    | some n => some (i, n)
    | none => rxSearchAux r t (i + 1)

/-- Leftmost match of `r` in `s`. -/
def rxSearch (r : Rx) (s : List Char) : Option (Nat × Nat) :=
  rxSearchAux r s 0

/-- The matched text of the leftmost match, like JavaScript `match[0]`. -/
def rxFirst (r : Rx) (s : List Char) : Option (List Char) :=
  match rxSearch r s with
  | some (i, n) => some ((s.drop i).take n)
  | none => none

/-! ## `src/src/analyzer.js` — `StyleAnalyzer`

`analyzeJavaScript` computes the non-blank non-comment line count, the five
feature flags and the accumulated `customFunctions` label list.  The
`customEventListeners` list is also accumulated by the source but is
consumed by no claim and feeds neither `determineComplexity` nor
`selectTemplate`; it is left out of the embedding. -/

/-- The regex `/common\s*:\s*{/` used both by the analyzer's shared-init
probe and by `JavaScriptTransformer.extractCommonInit`. -/
def commonDeclRx : Rx :=
  Rx.seq (rstr "common".toList)
    (Rx.seq wsStar (Rx.seq (Rx.lit ':') (Rx.seq wsStar (Rx.lit '\x7b'))))

/-- One attempt of `/^function\s+(\w+)/` at the head of `s`: the greedy
`\s+` takes the maximal whitespace run and `\w+` the maximal word run
(whitespace and word characters are disjoint, so maximal munch agrees with
the backtracking semantics).  Returns the matched text and the rest. -/
def fnDeclAt (s : List Char) : Option (List Char × List Char) :=
  if "function".toList.isPrefixOf s then
    let rest := s.drop 8
    let ws := rest.takeWhile isJsSpace
    if ws = [] then none
    else
      let rest2 := rest.dropWhile isJsSpace
      let w := rest2.takeWhile isWordChar
      if w = [] then none
      else some ("function".toList ++ ws ++ w, rest2.dropWhile isWordChar)
  else none

/-- The `/g`+`/m` scan of `content.match(/^function\s+(\w+)/gm)`: attempts
are made only at line starts, matches do not overlap, and the search resumes
right after each match.  `atStart` records whether the current position is a
line start; the fuel is one more than the text length, and every step
consumes at least one character. -/
def fnDeclScanAux : Nat → List Char → Bool → List (List Char)
  | 0, _, _ => []
  | _ + 1, [], _ => []
  | f + 1, c :: rest, atStart =>
    if atStart then
      match fnDeclAt (c :: rest) with
      | some (m, rest') => m :: fnDeclScanAux f rest' false
      | none => fnDeclScanAux f rest (c = '\n')
    else fnDeclScanAux f rest (c = '\n')

/-- All matches of `/^function\s+(\w+)/gm` in `content`. -/
def fnDecls (content : List Char) : List (List Char) :=
  fnDeclScanAux (content.length + 1) content true

/-- JavaScript `lines.filter(line => line.trim() && !line.trim().startsWith('//')).length`. -/
def linesOfCodeCount (content : List Char) : Nat :=
  ((splitNl content).filter (fun line =>
    !(jsTrim line).isEmpty && !(['/', '/'].isPrefixOf (jsTrim line)))).length

/-- JavaScript `Array.prototype.join(sep)` on a list of texts. -/
def joinSep (sep : List Char) : List (List Char) → List Char
  | [] => []
  | [x] => x
  | x :: y :: rest => x ++ sep ++ joinSep sep (y :: rest)

/-- The feature labels pushed onto `customFunctions`, in detection order —
the same push sequence occurs in `StyleAnalyzer.analyzeJavaScript`
(src/src/analyzer.js:109-144) and in `BrowserStyleConverter.analyze`
(src/web/src/browser-converter.js:100-105). -/
def featureLabels (hasH5P hasCharacters hasPhaseManagement hasPrintContent hasCommonInit : Bool) :
    List (List Char) :=
  (if hasH5P then ["H5P iframe resizer".toList] else []) ++
  (if hasCharacters then ["Character management".toList] else []) ++
  (if hasPhaseManagement then ["Phase management".toList] else []) ++
  (if hasPrintContent then ["printContent()".toList] else []) ++
  (if hasCommonInit then ["common.init()".toList] else [])

/-- The `analysis.customCode` record built by `analyzeJavaScript`. -/
structure CustomCode where
  hasH5P : Bool
  hasCharacters : Bool
  hasPhaseManagement : Bool
  hasPrintContent : Bool
  hasCommonInit : Bool
  customFunctions : List (List Char)
  linesOfCode : Nat
deriving DecidableEq, Repr

/-- Embedding of `StyleAnalyzer.analyzeJavaScript` (src/src/analyzer.js:95-166), the part
that fills `analysis.customCode` from the script text.  Labels are pushed to
`customFunctions` in detection order, followed by the trimmed
`/^function\s+(\w+)/gm` matches. -/
def analyzeJavaScript (content : List Char) : CustomCode :=
  let hasH5P := jsIncludes content "h5pResizerInitialized".toList ||
    jsIncludes content "H5P iframe Resizer".toList
  let hasCharacters := jsIncludes content "$exeDevice.characters".toList ||
    jsIncludes content ".udl-character".toList
  let hasPhaseManagement := jsIncludes content "nodeSubSection".toList ||
    jsIncludes content "nodeSection".toList ||
    jsIncludes content "nodeDecoration".toList
  let hasPrintContent := jsIncludes content "printContent".toList &&
    jsIncludes content "function".toList
  let hasCommonInit := jsIncludes content "common".toList &&
    jsIncludes content "init".toList &&
    (rxSearch commonDeclRx content).isSome
  { hasH5P := hasH5P
    hasCharacters := hasCharacters
    hasPhaseManagement := hasPhaseManagement
    hasPrintContent := hasPrintContent
    hasCommonInit := hasCommonInit
    customFunctions :=
      featureLabels hasH5P hasCharacters hasPhaseManagement hasPrintContent hasCommonInit ++
      (fnDecls content).map jsTrim
    linesOfCode := linesOfCodeCount content }

/-- The complexity tier. -/
inductive Complexity where
  | simple
  | moderate
  | complex
deriving DecidableEq, Repr

/-- Embedding of `StyleAnalyzer.determineComplexity` (src/src/analyzer.js:188-213). -/
def determineComplexity (custom : CustomCode) : Complexity :=
  if custom.hasH5P || custom.hasCharacters || custom.hasPhaseManagement then
    Complexity.complex
  else if custom.linesOfCode > 300 then
    Complexity.complex
  else if custom.hasPrintContent || custom.hasCommonInit ||
      custom.customFunctions.length > 2 then
    Complexity.moderate
  else
    Complexity.simple

/-- Embedding of `StyleAnalyzer.selectTemplate` (src/src/analyzer.js:218-226): `neo`
(which has `movePageTitle`) for complex styles, `base` otherwise. -/
def selectTemplate (complexity : Complexity) : List Char :=
  if complexity = Complexity.complex then "neo".toList else "base".toList

/-! ## `src/web/src/browser-converter.js` — `BrowserStyleConverter.analyze`

The browser duplicate of the classifier (lines 92-116 of the source): same
probes except that the phase probe omits `nodeDecoration`, the shared-init
probe omits the `init` containment test, and `customFunctions` holds only
the five feature labels (no top-level function declarations). -/

/-- The classification part of `BrowserStyleConverter.analyze`. -/
structure BrowserAnalysis where
  hasH5P : Bool
  hasCharacters : Bool
  hasPhaseManagement : Bool
  hasPrintContent : Bool
  hasCommonInit : Bool
  customFunctions : List (List Char)
  linesOfCode : Nat
  complexity : Complexity
  template : List Char
deriving DecidableEq, Repr

/-- Embedding of `BrowserStyleConverter.analyze` (src/web/src/browser-converter.js:92-134),
the classification of `jsContent`. -/
def browserAnalyze (jsContent : List Char) : BrowserAnalysis :=
  let linesOfCode := linesOfCodeCount jsContent
  let hasH5P := jsIncludes jsContent "h5pResizerInitialized".toList ||
    jsIncludes jsContent "H5P iframe Resizer".toList
  let hasCharacters := jsIncludes jsContent "$exeDevice.characters".toList ||
    jsIncludes jsContent ".udl-character".toList
  let hasPhaseManagement := jsIncludes jsContent "nodeSubSection".toList ||
    jsIncludes jsContent "nodeSection".toList
  let hasPrintContent := jsIncludes jsContent "printContent".toList &&
    jsIncludes jsContent "function".toList
  let hasCommonInit := jsIncludes jsContent "common".toList &&
    (rxSearch commonDeclRx jsContent).isSome
  let customFunctions :=
    featureLabels hasH5P hasCharacters hasPhaseManagement hasPrintContent hasCommonInit
  let tier :=
    if hasH5P || hasCharacters || hasPhaseManagement || linesOfCode > 300 then
      (Complexity.complex, "neo".toList)
    else if hasPrintContent || hasCommonInit || customFunctions.length > 2 then
      (Complexity.moderate, "base".toList)
    else
      (Complexity.simple, "base".toList)
  { hasH5P := hasH5P
    hasCharacters := hasCharacters
    hasPhaseManagement := hasPhaseManagement
    hasPrintContent := hasPrintContent
    hasCommonInit := hasCommonInit
    customFunctions := customFunctions
    linesOfCode := linesOfCode
    complexity := tier.1
    template := tier.2 }

/-! ## `src/src/config-updater.js` — `JavaScriptTransformer`

The brace-matched extractor and the custom-section extraction/splicing. -/

/-- The scanner state of the brace-counting loops in `extractFunction` and
`extractCommonInit`: the `braceCount` counter, the string mode (`inString`
together with `stringChar`, collapsed into an `Option Char`), and the
`escaped` flag. -/
structure ScanSt where
  brace : Int
  str : Option Char
  escaped : Bool
deriving DecidableEq, Repr

/-- Result of processing one character: the loop either returns (the
matching close brace was found) or continues in a new state. -/
inductive StepRes where
  | done : StepRes
  | cont (st : ScanSt) : StepRes
deriving DecidableEq, Repr

/-- One iteration of the brace-counting loop body
(src/src/config-updater.js:324-361), in the source's test order: a pending
escape consumes the character; a backslash sets the escape flag; outside a
string a quote enters string mode, `{` increments and `}` decrements the
counter (returning when it reaches zero); inside a string only the matching
quote character is significant. -/
def scanStep (st : ScanSt) (c : Char) : StepRes :=
  if st.escaped then StepRes.cont { st with escaped := false }
  else if c = '\\' then StepRes.cont { st with escaped := true }
  else
    match st.str with
    | none =>
      if c = '"' || c = '\'' || c = '\x60' then StepRes.cont { st with str := some c }
      else if c = '\x7b' then StepRes.cont { st with brace := st.brace + 1 }
      else if c = '\x7d' then
        if st.brace - 1 = 0 then StepRes.done
        else StepRes.cont { st with brace := st.brace - 1 }
      else StepRes.cont st
    | some q => if c = q then StepRes.cont { st with str := none } else StepRes.cont st

/-- The fresh state at loop entry (`braceCount = 0`, not in a string, not
escaped). -/
def scanInit : ScanSt := ⟨0, none, false⟩

/-- Run the loop over `cs` with `i` the index of the first character;
returns the index at which the loop returned, or `none` when the text ends
first (the source then falls through to `return null`). -/
def scanEnd : ScanSt → List Char → Nat → Option Nat
  | _, [], _ => none
  | st, c :: rest, i =>
    match scanStep st c with
    | StepRes.done => some i
    | StepRes.cont st' => scanEnd st' rest (i + 1)

/-- The state after processing all of `cs`, or `none` when the loop
returned somewhere inside `cs`. -/
def scanState : ScanSt → List Char → Option ScanSt
  | st, [] => some st
  | st, c :: rest =>
    match scanStep st c with
    | StepRes.done => none
    | StepRes.cont st' => scanState st' rest

/-- The start regex of `extractFunction`:
`` new RegExp(`${functionName}\s*:\s*function\s*\([^)]*\)\s*{`) ``. -/
def fnStartRx (name : List Char) : Rx :=
  Rx.seq (rstr name)
    (Rx.seq wsStar
      (Rx.seq (Rx.lit ':')
        (Rx.seq wsStar
          (Rx.seq (rstr "function".toList)
            (Rx.seq wsStar
              (Rx.seq (Rx.lit '(')
                (Rx.seq (Rx.starG (Rx.cls (fun c => c != ')')))
                  (Rx.seq (Rx.lit ')')
                    (Rx.seq wsStar (Rx.lit '\x7b'))))))))))

/-- Embedding of `JavaScriptTransformer.extractFunction` (src/src/config-updater.js:310-364):
find the declaration-key match, then brace-scan from the opening brace
(`startIndex = match.index + match[0].length - 1`) and slice from the match
start through the matching close brace. -/
def extractFunction (code functionName : List Char) : Option (List Char) :=
  match rxSearch (fnStartRx functionName) code with
  | none => none
  | some (ms, ml) =>
    let startIndex := ms + ml - 1
    match scanEnd scanInit (code.drop startIndex) startIndex with
    | none => none
    | some i => some ((code.take (i + 1)).drop ms)

/-- Embedding of `JavaScriptTransformer.extractCommonInit` (src/src/config-updater.js:369-421):
like `extractFunction` but anchored at `/common\s*:\s*{/` and returning
`'common: ' + code.slice(startIndex, i + 1)`. -/
def extractCommonInit (code : List Char) : Option (List Char) :=
  match rxSearch commonDeclRx code with
  | none => none
  | some (ms, ml) =>
    let startIndex := ms + ml - 1
    match scanEnd scanInit (code.drop startIndex) startIndex with
    | none => none
    | some i => some ("common: ".toList ++ (code.take (i + 1)).drop startIndex)

/-- Character class `["']` — either quote character. -/
def rxQuote : Rx := Rx.cls (fun c => c = '"' || c = '\'')

/-- The DOM-ready block regex of `extractCharacterManagement`:
`/document\.addEventListener\s*\(\s*["']DOMContentLoaded["']\s*,\s*\(event\)\s*=>\s*{[\s\S]*?\.udl-character[\s\S]*?}\);/`. -/
def charDomRx : Rx :=
  Rx.seq (rstr "document.addEventListener".toList)
    (Rx.seq wsStar
      (Rx.seq (Rx.lit '(')
        (Rx.seq wsStar
          (Rx.seq rxQuote
            (Rx.seq (rstr "DOMContentLoaded".toList)
              (Rx.seq rxQuote
                (Rx.seq wsStar
                  (Rx.seq (Rx.lit ',')
                    (Rx.seq wsStar
                      (Rx.seq (rstr "(event)".toList)
                        (Rx.seq wsStar
                          (Rx.seq (rstr "=>".toList)
                            (Rx.seq wsStar
                              (Rx.seq (Rx.lit '\x7b')
                                (Rx.seq (Rx.starL rxAny)
                                  (Rx.seq (rstr ".udl-character".toList)
                                    (Rx.seq (Rx.starL rxAny)
                                      (rstr "\x7d);".toList))))))))))))))))))

/-- The device block regex of `extractCharacterManagement`:
`/if\s*\(\s*typeof\s+\$exeDevice\s*!==\s*["']undefined["']\s*\)\s*{[\s\S]*?\$exeDevice\.characters[\s\S]*?}/`. -/
def charDevRx : Rx :=
  Rx.seq (rstr "if".toList)
    (Rx.seq wsStar
      (Rx.seq (Rx.lit '(')
        (Rx.seq wsStar
          (Rx.seq (rstr "typeof".toList)
            (Rx.seq wsPlus
              (Rx.seq (rstr "$exeDevice".toList)
                (Rx.seq wsStar
                  (Rx.seq (rstr "!==".toList)
                    (Rx.seq wsStar
                      (Rx.seq rxQuote
                        (Rx.seq (rstr "undefined".toList)
                          (Rx.seq rxQuote
                            (Rx.seq wsStar
                              (Rx.seq (Rx.lit ')')
                                (Rx.seq wsStar
                                  (Rx.seq (Rx.lit '\x7b')
                                    (Rx.seq (Rx.starL rxAny)
                                      (Rx.seq (rstr "$exeDevice.characters".toList)
                                        (Rx.seq (Rx.starL rxAny)
                                          (Rx.lit '\x7d'))))))))))))))))))))

/-- Embedding of `JavaScriptTransformer.extractCharacterManagement`
(src/src/config-updater.js:426-446): the two independently matched blocks,
joined by a blank line; `null` when neither matches. -/
def extractCharacterManagement (code : List Char) : Option (List Char) :=
  let sections := (rxFirst charDomRx code).toList ++ (rxFirst charDevRx code).toList
  if sections.isEmpty then none
  else some (joinSep "\n\n".toList sections)

/-- The H5P IIFE regex of `extractH5PResizer`:
`/\/\/ H5P iframe Resizer[\s\S]*?\(function\s*\(\)\s*{[\s\S]*?}\)\(\);/`. -/
def h5pRx : Rx :=
  Rx.seq (rstr "// H5P iframe Resizer".toList)
    (Rx.seq (Rx.starL rxAny)
      (Rx.seq (Rx.lit '(')
        (Rx.seq (rstr "function".toList)
          (Rx.seq wsStar
            (Rx.seq (Rx.lit '(')
              (Rx.seq (Rx.lit ')')
                (Rx.seq wsStar
                  (Rx.seq (Rx.lit '\x7b')
                    (Rx.seq (Rx.starL rxAny)
                      (rstr "\x7d)();".toList))))))))))

/-- Embedding of `JavaScriptTransformer.extractH5PResizer` (src/src/config-updater.js:451-457). -/
def extractH5PResizer (code : List Char) : Option (List Char) :=
  rxFirst h5pRx code

/-- The phase-management regex of `extractPhaseManagement`
(src/src/config-updater.js:465-467):
`/\/\/Phase management[\s\S]*?$("#nodeDecoration")\.addClass[\s\S]*?}/`.
The `$` in the pattern is unescaped, so it is the end-of-input assertion
(the pattern is not multiline), and `(`/`)` delimit a capture group around
the literal `"#nodeDecoration"`.  The part from the `$` assertion onwards
is named separately for use in the proofs. -/
def phaseTailRx : Rx :=
  Rx.seq Rx.eos
    (Rx.seq (rstr "\"#nodeDecoration\"".toList)
      (Rx.seq (rstr ".addClass".toList)
        (Rx.seq (Rx.starL rxAny) (Rx.lit '\x7d'))))

/-- The whole phase-management pattern of `extractPhaseManagement`. -/
def phaseRx : Rx :=
  Rx.seq (rstr "//Phase management".toList)
    (Rx.seq (Rx.starL rxAny) phaseTailRx)

/-- Embedding of `JavaScriptTransformer.extractPhaseManagement`
(src/src/config-updater.js:462-469). -/
def extractPhaseManagement (code : List Char) : Option (List Char) :=
  rxFirst phaseRx code

/-- The `location` tag of an extracted section; the source uses the strings
`'myTheme object'`, `'after main code'` and `'common.init'`. -/
inductive Location where
  | myThemeObject
  | afterMainCode
  | commonInitLoc
deriving DecidableEq, Repr

/-- One extracted section (`{name, code, location}`). -/
structure Section where
  name : List Char
  code : List Char
  location : Location
deriving DecidableEq, Repr

/-- Embedding of `JavaScriptTransformer.extractCustomCode`
(src/src/config-updater.js:233-305).  The source returns `''` when
`analysis.jsContent` is empty (modelled `none`) and otherwise the `sections`
array, pushing a label onto `this.customCodeSections` for every
successfully extracted section; the mutable accumulator is modelled as the
second component of the returned pair. -/
def extractCustomCode (oldJS : List Char) (custom : CustomCode) :
    Option (List Section × List (List Char)) :=
  if oldJS.isEmpty then none
  else
    let printPart :=
      if custom.hasPrintContent then
        match extractFunction oldJS "printContent".toList with
        | some c =>
          ([Section.mk "printContent function".toList c Location.myThemeObject],
           ["printContent()".toList])
        | none => ([], [])
      else ([], [])
    let commonPart :=
      if custom.hasCommonInit then
        match extractCommonInit oldJS with
        | some c =>
          ([Section.mk "common.init function".toList c Location.myThemeObject],
           ["common.init()".toList])
        | none => ([], [])
      else ([], [])
    let charPart :=
      if custom.hasCharacters then
        match extractCharacterManagement oldJS with
        | some c =>
          ([Section.mk "Character management".toList c Location.afterMainCode],
           ["Character management".toList])
        | none => ([], [])
      else ([], [])
    let h5pPart :=
      if custom.hasH5P then
        match extractH5PResizer oldJS with
        | some c =>
          ([Section.mk "H5P iframe resizer".toList c Location.afterMainCode],
           ["H5P iframe resizer".toList])
        | none => ([], [])
      else ([], [])
    let phasePart :=
      if custom.hasPhaseManagement then
        match extractPhaseManagement oldJS with
        | some c =>
          ([Section.mk "Phase management".toList c Location.commonInitLoc],
           ["Phase management".toList])
        | none => ([], [])
      else ([], [])
    some (printPart.1 ++ commonPart.1 ++ charPart.1 ++ h5pPart.1 ++ phasePart.1,
          printPart.2 ++ commonPart.2 ++ charPart.2 ++ h5pPart.2 ++ phasePart.2)

/-- The anchor regex of `integrateCustomCode`
(src/src/config-updater.js:488):
`/(params\s*:\s*function\s*\([^)]*\)\s*{[\s\S]*?}\s*,?\s*\n)/`. -/
def paramsRx : Rx :=
  Rx.seq (rstr "params".toList)
    (Rx.seq wsStar
      (Rx.seq (Rx.lit ':')
        (Rx.seq wsStar
          (Rx.seq (rstr "function".toList)
            (Rx.seq wsStar
              (Rx.seq (Rx.lit '(')
                (Rx.seq (Rx.starG (Rx.cls (fun c => c != ')')))
                  (Rx.seq (Rx.lit ')')
                    (Rx.seq wsStar
                      (Rx.seq (Rx.lit '\x7b')
                        (Rx.seq (Rx.starL rxAny)
                          (Rx.seq (Rx.lit '\x7d')
                            (Rx.seq wsStar
                              (Rx.seq (Rx.opt (Rx.lit ','))
                                (Rx.seq wsStar (Rx.lit '\n'))))))))))))))))

/-- The provenance marker (with surrounding layout) prefixed to spliced
container sections. -/
def customFunctionsMarker : List Char :=
  "\n    // === CUSTOM FUNCTIONS PRESERVED FROM v2.9 ===\n    ".toList

/-- The provenance marker prefixed to appended sections. -/
def customCodeMarker : List Char :=
  "\n// === CUSTOM CODE PRESERVED FROM v2.9 ===\n".toList

/-- Ensure a trailing comma: `code.endsWith(',') ? code : code + ','`. -/
def ensureComma (code : List Char) : List Char :=
  if code.getLast? = some ',' then code else code ++ [',']

/-- Embedding of `JavaScriptTransformer.integrateCustomCode`
(src/src/config-updater.js:474-510): return the template unchanged for an
empty section list; insert the `myTheme object` sections (joined by
`'\n\n    '`, each comma-terminated) right after the first match of the
`params` anchor pattern when that pattern matches; then append the
`after main code` sections (joined by blank lines) at the end of the text. -/
def integrateCustomCode (newJS : List Char) (customSections : List Section) : List Char :=
  if customSections.isEmpty then newJS
  else
    let myThemeSections :=
      customSections.filter (fun s => decide (s.location = Location.myThemeObject))
    let afterCodeSections :=
      customSections.filter (fun s => decide (s.location = Location.afterMainCode))
    let result1 :=
      if !myThemeSections.isEmpty then
        match rxSearch paramsRx newJS with
        | some (i, len) =>
          let insertPos := i + len
          let customFunctions :=
            joinSep "\n\n    ".toList (myThemeSections.map fun s => ensureComma s.code)
          newJS.take insertPos ++ customFunctionsMarker ++ customFunctions ++ ['\n'] ++
            newJS.drop insertPos
        | none => newJS
      else newJS
    if !afterCodeSections.isEmpty then
      result1 ++ customCodeMarker ++
        joinSep "\n\n".toList (afterCodeSections.map Section.code) ++ ['\n']
    else result1

/-- The slice of `analysis` that `JavaScriptTransformer.transform` consumes. -/
structure JsAnalysis where
  complexity : Complexity
  jsContent : List Char
  customCode : CustomCode
deriving Repr

/-- Embedding of `JavaScriptTransformer.transform` (src/src/config-updater.js:204-228)
with the template text (read from the selected template file) passed in:
for non-simple styles extract the custom sections and integrate them into
the template; returns the final text and `customCodeSections`. -/
def transformJS (analysis : JsAnalysis) (templateText : List Char) :
    List Char × List (List Char) :=
  if analysis.complexity ≠ Complexity.simple then
    match extractCustomCode analysis.jsContent analysis.customCode with
    | none => (templateText, [])
    | some (secs, names) => (integrateCustomCode templateText secs, names)
  else (templateText, [])

/-! ## `src/src/config-updater.js` — `ConfigUpdater`

Metadata migration of `config.xml`.  The parsed old `<theme>` element is
modelled as a record of optional field texts (`theme[field][0]`); a missing
field is `none`, and the JavaScript truthiness test
`theme[field] && theme[field][0]` drops empty strings as well. -/

/-- The old `<theme>` fields that `extractMetadata` reads. -/
structure ThemeXml where
  name : Option (List Char) := none
  title : Option (List Char) := none
  version : Option (List Char) := none
  compatibility : Option (List Char) := none
  author : Option (List Char) := none
  authorUrl : Option (List Char) := none
  license : Option (List Char) := none
  licenseUrl : Option (List Char) := none
  description : Option (List Char) := none
  downloadable : Option (List Char) := none
deriving DecidableEq, Repr

/-- The metadata record `extractMetadata` produces. -/
structure Metadata where
  name : Option (List Char)
  title : Option (List Char)
  version : Option (List Char)
  compatibility : Option (List Char)
  author : Option (List Char)
  authorUrl : Option (List Char)
  license : Option (List Char)
  licenseUrl : Option (List Char)
  description : Option (List Char)
  downloadable : Option (List Char)
deriving DecidableEq, Repr

/-- Keep a field only when it is truthy (`theme[field] && theme[field][0]`). -/
def keepTruthy : Option (List Char) → Option (List Char)
  | some v => if v.isEmpty then none else some v
  | none => none

/-- Embedding of `ConfigUpdater.extractMetadata` (src/src/config-updater.js:46-122),
without the side `changes` log (reporting only): copy the truthy fields,
default the title to the name, force `version = '2025'` and
`compatibility = '3.0'`, and default `downloadable` to `'1'`. -/
def extractMetadata (theme : ThemeXml) : Metadata :=
  let name := keepTruthy theme.name
  let title0 := keepTruthy theme.title
  let title := if title0 = none ∧ name ≠ none then name else title0
  { name := name
    title := title
    version := some "2025".toList
    compatibility := some "3.0".toList
    author := keepTruthy theme.author
    authorUrl := keepTruthy theme.authorUrl
    license := keepTruthy theme.license
    licenseUrl := keepTruthy theme.licenseUrl
    description := keepTruthy theme.description
    downloadable :=
      match keepTruthy theme.downloadable with
      | none => some "1".toList
      | some v => some v }

/-- One character of JavaScript `replace(/c/g, sub)`. -/
def repChar (c : Char) (sub : List Char) : List Char → List Char
  | [] => []
  | x :: xs => if x = c then sub ++ repChar c sub xs else x :: repChar c sub xs

/-- Embedding of `ConfigUpdater.escapeXml` (src/src/config-updater.js:162-170): the five
global replacements in source order (`&`, `<`, `>`, `"`, `'`); the guard
`if (!str) return ''` coincides with the chain on the empty string. -/
def escapeXml (s : List Char) : List Char :=
  repChar '\'' "&apos;".toList
    (repChar '"' "&quot;".toList
      (repChar '>' "&gt;".toList
        (repChar '<' "&lt;".toList
          (repChar '&' "&amp;".toList s))))

/-- One entry of the `fields` array of `generateNewConfig`. -/
structure ConfigField where
  key : List Char
  value : List Char
  optional : Bool
deriving DecidableEq, Repr

/-- JavaScript `a || b` on an optional string with a default. -/
def jsOrDefault (o : Option (List Char)) (d : List Char) : List Char :=
  match o with
  | some v => if v.isEmpty then d else v
  | none => d

/-- The `fields` array of `generateNewConfig`
(src/src/config-updater.js:128-139). -/
def configFields (styleName : List Char) (md : Metadata) : List ConfigField :=
  [ ConfigField.mk "name".toList (jsOrDefault md.name styleName) false,
    ConfigField.mk "title".toList
      (jsOrDefault md.title (jsOrDefault md.name styleName)) false,
    ConfigField.mk "version".toList (jsOrDefault md.version "2025".toList) false,
    ConfigField.mk "compatibility".toList "3.0".toList false,
    ConfigField.mk "author".toList (jsOrDefault md.author "Unknown".toList) false,
    ConfigField.mk "author-url".toList (jsOrDefault md.authorUrl []) true,
    ConfigField.mk "license".toList
      (jsOrDefault md.license "Creative Commons by-sa".toList) false,
    ConfigField.mk "license-url".toList
      (jsOrDefault md.licenseUrl "http://creativecommons.org/licenses/by-sa/3.0/".toList) false,
    ConfigField.mk "description".toList
      (jsOrDefault md.description "Converted from v2.9 to v3.0".toList) false,
    ConfigField.mk "downloadable".toList (jsOrDefault md.downloadable "1".toList) false ]

/-- The fields actually emitted: `if (field.optional && !field.value) continue`. -/
def emittedFields (styleName : List Char) (md : Metadata) : List ConfigField :=
  (configFields styleName md).filter (fun f => !(f.optional && f.value.isEmpty))

/-- The XML line emitted for a field:
`` `    <${field.key}>${escapeXml(field.value)}</${field.key}>\n` ``. -/
def emitField (f : ConfigField) : List Char :=
  "    <".toList ++ f.key ++ ">".toList ++ escapeXml f.value ++
    "</".toList ++ f.key ++ ">\n".toList

/-- Embedding of `ConfigUpdater.generateNewConfig` (src/src/config-updater.js:127-157). -/
def generateNewConfig (styleName : List Char) (md : Metadata) : List Char :=
  "<?xml version=\"1.0\" encoding=\"UTF-8\"?>\n".toList ++ "<theme>\n".toList ++
    ((emittedFields styleName md).map emitField).flatten ++ "</theme>\n".toList

/-! ## Auxiliary views of `extractCustomCode`, and concrete fixtures -/

/-- The five recognized features, in `extractCustomCode`'s fixed order. -/
inductive Feature where
  | print
  | commonInit
  | characters
  | h5p
  | phase
deriving DecidableEq, Repr

/-- The flag gating each feature's extraction. -/
def featFlag : Feature → CustomCode → Bool
  | Feature.print, c => c.hasPrintContent
  | Feature.commonInit, c => c.hasCommonInit
  | Feature.characters, c => c.hasCharacters
  | Feature.h5p, c => c.hasH5P
  | Feature.phase, c => c.hasPhaseManagement

/-- The extractor invoked for each feature. -/
def featRes : Feature → List Char → Option (List Char)
  | Feature.print, js => extractFunction js "printContent".toList
  | Feature.commonInit, js => extractCommonInit js
  | Feature.characters, js => extractCharacterManagement js
  | Feature.h5p, js => extractH5PResizer js
  | Feature.phase, js => extractPhaseManagement js

/-- The `name` given to each feature's section. -/
def featName : Feature → List Char
  | Feature.print => "printContent function".toList
  | Feature.commonInit => "common.init function".toList
  | Feature.characters => "Character management".toList
  | Feature.h5p => "H5P iframe resizer".toList
  | Feature.phase => "Phase management".toList

/-- The label pushed onto `customCodeSections` for each feature. -/
def featLabel : Feature → List Char
  | Feature.print => "printContent()".toList
  | Feature.commonInit => "common.init()".toList
  | Feature.characters => "Character management".toList
  | Feature.h5p => "H5P iframe resizer".toList
  | Feature.phase => "Phase management".toList

/-- The `location` tag given to each feature's section. -/
def featLoc : Feature → Location
  | Feature.print => Location.myThemeObject
  | Feature.commonInit => Location.myThemeObject
  | Feature.characters => Location.afterMainCode
  | Feature.h5p => Location.afterMainCode
  | Feature.phase => Location.commonInitLoc

/-- The sections contributed by one feature block of `extractCustomCode`. -/
def optSec (b : Bool) (r : Option (List Char)) (nm : List Char) (loc : Location) :
    List Section :=
  if b then
    match r with
    | some c => [Section.mk nm c loc]
    | none => []
  else []

/-- The labels contributed by one feature block of `extractCustomCode`. -/
def optLab (b : Bool) (r : Option (List Char)) (lab : List Char) : List (List Char) :=
  if b then
    match r with
    | some _ => [lab]
    | none => []
  else []

/-- An anchored template fixture (with a `params` declaration). -/
def vwTemplate : List Char := "params : function () \x7b return 1; \x7d,\nEND".toList

/-- An `after main code` section fixture. -/
def vwAfterSec : Section :=
  Section.mk "H5P iframe resizer".toList "afterCode();".toList Location.afterMainCode

/-- A `myTheme object` section fixture. -/
def vwMySec : Section :=
  Section.mk "printContent function".toList
    "pc: function() \x7b return 9; \x7d".toList Location.myThemeObject

/-- A script fixture carrying an H5P resizer block but no `printContent`
declaration. -/
def skipWitnessJS : List Char :=
  "// H5P iframe Resizer\n(function () \x7b h(); \x7d)();".toList

/-- A flag fixture with the print helper and H5P both set. -/
def skipWitnessCC : CustomCode := CustomCode.mk true false false true false [] 0

/-! ## Lemmas about the matcher -/

/-- A matcher run whose continuation rejects every remainder fails: `mrun`
only ever produces a value by calling its continuation. -/
theorem mrun_none_of_k_none :
    ∀ (f : Nat) (r : Rx) (s : List Char) (k : List Char → Option (List Char)),
      (∀ t, k t = none) → mrun f r s k = none := by
  intro f
  induction f with
  | zero => intro r s k _; rfl
  | succ f ih =>
    intro r s k hk
    cases r with
    | eps => simpa using hk s
    | lit c =>
      cases s with
      | nil => rfl
      | cons x rest => simp only [mrun, hk rest, ite_self]
    | cls p =>
      cases s with
      | nil => rfl
      | cons x rest => simp only [mrun, hk rest, ite_self]
    | seq a b =>
      exact ih a s _ (fun t => ih b t k hk)
    | alt a b =>
      simp only [mrun, ih a s k hk, ih b s k hk]
      rfl
    | opt a =>
      simp only [mrun, ih a s k hk, hk s]
      rfl
    | starG a =>
      have hK : ∀ t, (fun s' =>
          if s'.length < s.length then mrun f (Rx.starG a) s' k else none) t = none := by
        intro t
        by_cases ht : t.length < s.length
        · simp only [ht, if_true, ih (Rx.starG a) t k hk]
        · simp only [ht, if_false]
      simp only [mrun, ih a s _ hK, hk s]
      rfl
    | starL a =>
      have hK : ∀ t, (fun s' =>
          if s'.length < s.length then mrun f (Rx.starL a) s' k else none) t = none := by
        intro t
        by_cases ht : t.length < s.length
        · simp only [ht, if_true, ih (Rx.starL a) t k hk]
        · simp only [ht, if_false]
      simp only [mrun, hk s, ih a s _ hK]
      rfl
    | eos =>
      cases s with
      | nil => simpa using hk []
      | cons x rest => rfl

/-- The tail of the phase pattern — the `$` assertion followed by required
literal characters — can never match: `$` succeeds only at the end of the
input, where no literal can follow. -/
theorem mrun_phaseTail_none :
    ∀ (f : Nat) (s : List Char) (k : List Char → Option (List Char)),
      mrun f phaseTailRx s k = none := by
  intro f s k
  match f, s with
  | 0, _ => rfl
  | 1, _ => rfl
  | _ + 2, _ :: _ => rfl
  | f + 2, [] =>
    match f with
    | 0 => rfl
    | 1 => rfl
    | _ + 2 => rfl

/-- Hence the whole part of the phase pattern from the lazy gap onwards
fails on every input. -/
theorem mrun_phaseMid_none :
    ∀ (f : Nat) (s : List Char) (k : List Char → Option (List Char)),
      mrun f (Rx.seq (Rx.starL rxAny) phaseTailRx) s k = none := by
  intro f s k
  cases f with
  | zero => rfl
  | succ f =>
    exact mrun_none_of_k_none f (Rx.starL rxAny) s _
      (fun t => mrun_phaseTail_none f t k)

/-- The phase pattern matches at no position prefix. -/
theorem rxMatchLen_phase_none (s : List Char) : rxMatchLen phaseRx s = none := by
  unfold rxMatchLen
  have h : mrun (rxFuel s) phaseRx s (fun rest => some rest) = none := by
    cases hf : rxFuel s with
    | zero => rfl
    | succ f =>
      simp only [phaseRx, mrun]
      exact mrun_none_of_k_none f _ s _ (fun t => mrun_phaseMid_none f t _)
  rw [h]

/-- C2 (code_bug evidence): `extractPhaseManagement` returns `null` on
every input.  The unescaped `$` in its regex is the end-of-input assertion,
which cannot be followed by the required literal `"#nodeDecoration"`, so
the pattern matches no text at all; the flagged phase-management section is
always silently absent, contrary to the function's own documentation and to
the spec's phase-decorator extraction rule. -/
theorem extractPhaseManagement_never_matches (code : List Char) :
    extractPhaseManagement code = none := by
  have haux : ∀ (s : List Char) (i : Nat), rxSearchAux phaseRx s i = none := by
    intro s
    induction s with
    | nil =>
      intro i
      simp only [rxSearchAux, rxMatchLen_phase_none]
    | cons c t ih =>
      intro i
      simp only [rxSearchAux, rxMatchLen_phase_none]
      exact ih (i + 1)
  unfold extractPhaseManagement rxFirst rxSearch
  rw [haux code 0]

/-! ## Lemmas about the brace scanner -/

/-- Fold law: `scanState` distributes over append. -/
theorem scanState_append (a b : List Char) :
    ∀ st, scanState st (a ++ b) = (scanState st a).bind (fun st' => scanState st' b) := by
  induction a with
  | nil => intro st; rfl
  | cons c t ih =>
    intro st
    cases h : scanStep st c with
    | done => simp only [List.cons_append, scanState, h]; rfl
    | cont st' => simp only [List.cons_append, scanState, h]; exact ih st'

/-- If the loop does not return inside `a`, scanning `a ++ b` continues into
`b` from the state after `a`, with the index advanced by `a.length`. -/
theorem scanEnd_of_scanState (a b : List Char) :
    ∀ st st' i, scanState st a = some st' →
      scanEnd st (a ++ b) i = scanEnd st' b (i + a.length) := by
  induction a with
  | nil =>
    intro st st' i h
    simp only [scanState] at h
    cases h
    simp
  | cons c t ih =>
    intro st st' i h
    cases hs : scanStep st c with
    | done =>
      simp only [scanState, hs] at h
      exact Option.noConfusion h
    | cont st₁ =>
      simp only [scanState, hs] at h
      simp only [List.cons_append, scanEnd, hs]
      show scanEnd st₁ (t ++ b) (i + 1) = scanEnd st' b (i + (c :: t).length)
      rw [ih st₁ st' (i + 1) h]
      congr 1
      simp only [List.length_cons]
      omega

/-- The index argument of `scanEnd` is a pure offset. -/
theorem scanEnd_shift (cs : List Char) :
    ∀ st i k, scanEnd st cs (i + k) = (scanEnd st cs i).map (fun n => n + k) := by
  induction cs with
  | nil => intros; rfl
  | cons c t ih =>
    intro st i k
    cases hs : scanStep st c with
    | done => simp [scanEnd, hs]
    | cont st' =>
      simp only [scanEnd, hs]
      rw [show i + k + 1 = i + 1 + k by omega]
      exact ih st' (i + 1) k

/-- Processing an inserted brace — bare, or preceded by a backslash escape —
at a point where the scanner is inside a string literal (and not already in
an escape) leaves the scanner state untouched: braces are not quote
characters, and an escaped character is skipped outright. -/
theorem scanState_insert (d : Int) (q : Char) (ins : List Char)
    (hquote : q = '"' ∨ q = '\'' ∨ q = '\x60')
    (hins : ins = ['\x7b'] ∨ ins = ['\x7d'] ∨ ins = ['\\', '\x7b'] ∨ ins = ['\\', '\x7d']) :
    scanState ⟨d, some q, false⟩ ins = some ⟨d, some q, false⟩ := by
  have hstep : ∀ b : Char, b = '\x7b' ∨ b = '\x7d' →
      scanStep ⟨d, some q, false⟩ b = StepRes.cont ⟨d, some q, false⟩ := by
    intro b hbb
    rcases hbb with rfl | rfl <;> rcases hquote with rfl | rfl | rfl <;> simp [scanStep]
  have hbsl : scanStep ⟨d, some q, false⟩ '\\' = StepRes.cont ⟨d, some q, true⟩ := by
    simp [scanStep]
  have hafter : ∀ b : Char, scanStep ⟨d, some q, true⟩ b = StepRes.cont ⟨d, some q, false⟩ := by
    intro b; simp [scanStep]
  rcases hins with rfl | rfl | rfl | rfl
  · simp [scanState, hstep '\x7b' (Or.inl rfl)]
  · simp [scanState, hstep '\x7d' (Or.inr rfl)]
  · simp [scanState, hbsl, hafter]
  · simp [scanState, hbsl, hafter]

/-- C1: braces inserted inside a string literal of an otherwise-balanced
block do not change which closing brace `extractFunction` stops at.  The
block is the text scanned from the opening brace at `startIndex =
ms + ml - 1` (`pre` is everything before it); the insertion point splits
the block into `body1 ++ body2`, and the scanner state after `body1` is
in-string and not mid-escape.  The extracted span of the modified text ends
at `e + ins.length` — the image of the very character at which the span of
the original text ends, every position after the insertion being shifted by
exactly `ins.length`. -/
theorem extractFunction_braces_in_strings
    (name pre body1 body2 ins : List Char) (q : Char) (d : Int)
    (ms ml e : Nat)
    (hquote : q = '"' ∨ q = '\'' ∨ q = '\x60')
    (hins : ins = ['\x7b'] ∨ ins = ['\x7d'] ∨ ins = ['\\', '\x7b'] ∨ ins = ['\\', '\x7d'])
    (hm : rxSearch (fnStartRx name) (pre ++ (body1 ++ body2)) = some (ms, ml))
    (hm' : rxSearch (fnStartRx name) (pre ++ (body1 ++ (ins ++ body2))) = some (ms, ml))
    (hpre : pre.length = ms + ml - 1)
    (hst : scanState scanInit body1 = some ⟨d, some q, false⟩)
    (hend : scanEnd scanInit (body1 ++ body2) pre.length = some e) :
    extractFunction (pre ++ (body1 ++ body2)) name =
      some (((pre ++ (body1 ++ body2)).take (e + 1)).drop ms) ∧
    extractFunction (pre ++ (body1 ++ (ins ++ body2))) name =
      some (((pre ++ (body1 ++ (ins ++ body2))).take (e + ins.length + 1)).drop ms) := by
  have hdrop : (pre ++ (body1 ++ body2)).drop (ms + ml - 1) = body1 ++ body2 := by
    rw [← hpre, List.drop_left]
  have hdrop' : (pre ++ (body1 ++ (ins ++ body2))).drop (ms + ml - 1) =
      body1 ++ (ins ++ body2) := by
    rw [← hpre, List.drop_left]
  have hend1 : scanEnd scanInit (body1 ++ body2) (ms + ml - 1) = some e := by
    rw [← hpre]; exact hend
  have hmid : scanEnd ⟨d, some q, false⟩ body2 (pre.length + body1.length) = some e := by
    rw [← scanEnd_of_scanState body1 body2 scanInit _ pre.length hst]
    exact hend
  have hend2 : scanEnd scanInit (body1 ++ (ins ++ body2)) (ms + ml - 1) =
      some (e + ins.length) := by
    rw [← hpre]
    rw [scanEnd_of_scanState body1 (ins ++ body2) scanInit _ pre.length hst]
    rw [scanEnd_of_scanState ins body2 _ _ (pre.length + body1.length)
      (scanState_insert d q ins hquote hins)]
    rw [scanEnd_shift body2 _ (pre.length + body1.length) ins.length]
    rw [hmid]
    rfl
  constructor
  · unfold extractFunction
    rw [hm]
    simp only [hdrop, hend1]
  · unfold extractFunction
    rw [hm']
    simp only [hdrop', hend2]

/-- Concrete instance of `extractFunction_braces_in_strings`: inserting the
brace `}` inside the string literal of
`printContent: function(a){v='x';}` (giving `…{v='}x';}`) moves the
extracted span's end from index 32 to index 33 — the same closing brace,
shifted by the one inserted character. -/
theorem extractFunction_braces_in_strings_witness :
    (rxSearch (fnStartRx "printContent".toList)
      ("printContent: function(a)".toList ++ ("\x7bv='".toList ++ "x';\x7d".toList)) =
        some (0, 26)) ∧
    (rxSearch (fnStartRx "printContent".toList)
      ("printContent: function(a)".toList ++
        ("\x7bv='".toList ++ (['\x7d'] ++ "x';\x7d".toList))) = some (0, 26)) ∧
    ("printContent: function(a)".toList.length = 0 + 26 - 1) ∧
    (scanState scanInit "\x7bv='".toList = some ⟨1, some '\'', false⟩) ∧
    (scanEnd scanInit ("\x7bv='".toList ++ "x';\x7d".toList)
      "printContent: function(a)".toList.length = some 32) ∧
    (extractFunction
        ("printContent: function(a)".toList ++ ("\x7bv='".toList ++ "x';\x7d".toList))
        "printContent".toList =
      some ((("printContent: function(a)".toList ++
        ("\x7bv='".toList ++ "x';\x7d".toList)).take (32 + 1)).drop 0) ∧
    extractFunction
        ("printContent: function(a)".toList ++
          ("\x7bv='".toList ++ (['\x7d'] ++ "x';\x7d".toList)))
        "printContent".toList =
      some ((("printContent: function(a)".toList ++
        ("\x7bv='".toList ++ (['\x7d'] ++ "x';\x7d".toList))).take
          (32 + ['\x7d'].length + 1)).drop 0)) :=
  ⟨by decide, by decide, by decide, by decide, by decide,
    extractFunction_braces_in_strings "printContent".toList
      "printContent: function(a)".toList "\x7bv='".toList "x';\x7d".toList
      ['\x7d'] '\'' 1 0 26 32
      (Or.inr (Or.inl rfl)) (Or.inr (Or.inl rfl))
      (by decide) (by decide) (by decide) (by decide) (by decide)⟩

/-! ## The complexity/template decision table -/

/-- Core of the decision table: on a `customCode` record as the analyzer
builds it — `customFunctions` being the feature labels followed by the
top-level function declaration matches — `determineComplexity` and
`selectTemplate` realize exactly the three ordered rules, with rule 2's
function count referring to the *other* (non-feature) functions alone. -/
theorem decision_table_core (h5 ch ph pr co : Bool) (fns : List (List Char)) (loc : Nat) :
    (determineComplexity
        (CustomCode.mk h5 ch ph pr co (featureLabels h5 ch ph pr co ++ fns) loc),
      selectTemplate (determineComplexity
        (CustomCode.mk h5 ch ph pr co (featureLabels h5 ch ph pr co ++ fns) loc))) =
    (if h5 || ch || ph || decide (loc > 300) then (Complexity.complex, "neo".toList)
     else if pr || co || decide (fns.length > 2) then (Complexity.moderate, "base".toList)
     else (Complexity.simple, "base".toList)) := by
  by_cases h1 : (h5 || ch || ph) = true
  · have h1' : (h5 || ch || ph || decide (loc > 300)) = true := by
      simp only [Bool.or_eq_true] at h1 ⊢
      tauto
    simp [determineComplexity, selectTemplate, h1, h1']
  · have h1f : h5 = false ∧ ch = false ∧ ph = false := by
      simp only [Bool.or_eq_true, not_or, Bool.not_eq_true] at h1
      exact ⟨h1.1.1, h1.1.2, h1.2⟩
    obtain ⟨e5, ec, ep⟩ := h1f
    subst e5; subst ec; subst ep
    by_cases h2 : loc > 300
    · simp [determineComplexity, selectTemplate, h2]
    · by_cases h3 : (pr || co) = true
      · rcases Bool.or_eq_true pr co |>.mp h3 with hp | hc
        · subst hp; simp [determineComplexity, selectTemplate, h2]
        · subst hc; simp [determineComplexity, selectTemplate, h2]
      · have h3f : pr = false ∧ co = false := by
          simp only [Bool.or_eq_true, not_or, Bool.not_eq_true] at h3
          exact h3
        obtain ⟨epr, eco⟩ := h3f
        subst epr; subst eco
        by_cases h4 : fns.length > 2
        · simp [determineComplexity, selectTemplate, featureLabels, h2, h4]
        · simp [determineComplexity, selectTemplate, featureLabels, h2, h4]

/-- C4: for every script text, the analyzer pipeline's tier and template
follow the ordered decision table — Complex with the page-title-aware
template (`neo`) exactly when the iframe-resize (H5P), character-manager or
phase-decorator flag is set or the line count exceeds 300; otherwise
Moderate with the base template exactly when the print-helper or
shared-init flag is set or more than two other top-level function
declarations were detected; otherwise Simple with the base template. -/
theorem complexity_template_decision_table (content : List Char) :
    (determineComplexity (analyzeJavaScript content),
      selectTemplate (determineComplexity (analyzeJavaScript content))) =
    (if (analyzeJavaScript content).hasH5P || (analyzeJavaScript content).hasCharacters ||
        (analyzeJavaScript content).hasPhaseManagement ||
        decide ((analyzeJavaScript content).linesOfCode > 300) then
      (Complexity.complex, "neo".toList)
    else if (analyzeJavaScript content).hasPrintContent ||
        (analyzeJavaScript content).hasCommonInit ||
        decide ((fnDecls content).length > 2) then
      (Complexity.moderate, "base".toList)
    else (Complexity.simple, "base".toList)) := by
  have hlen : ((fnDecls content).map jsTrim).length = (fnDecls content).length :=
    List.length_map _ _
  simp only [analyzeJavaScript]
  rw [decision_table_core, hlen]

/-! ## Browser vs command-line classifier -/

/-- C5 counterexample: on the text `nodeDecoration` the command-line
classifier sets the phase-management flag (its probe also checks
`nodeDecoration`) and classifies complex/`neo`, while the browser
classifier leaves the flag unset and classifies simple/`base` — the two
variants are not behaviourally equivalent. -/
theorem browser_cli_classifier_disagree :
    (analyzeJavaScript "nodeDecoration".toList).hasPhaseManagement = true ∧
    (browserAnalyze "nodeDecoration".toList).hasPhaseManagement = false ∧
    determineComplexity (analyzeJavaScript "nodeDecoration".toList) = Complexity.complex ∧
    selectTemplate (determineComplexity (analyzeJavaScript "nodeDecoration".toList)) =
      "neo".toList ∧
    (browserAnalyze "nodeDecoration".toList).complexity = Complexity.simple ∧
    (browserAnalyze "nodeDecoration".toList).template = "base".toList := by
  decide

/-- The browser's inline complexity/template conditional agrees with
`determineComplexity`/`selectTemplate` on any record with the same fields. -/
theorem browser_tier_core (h5 ch ph pr co : Bool) (cf : List (List Char)) (loc : Nat) :
    (if h5 || ch || ph || decide (loc > 300) then (Complexity.complex, "neo".toList)
     else if pr || co || decide (cf.length > 2) then (Complexity.moderate, "base".toList)
     else (Complexity.simple, "base".toList)) =
    (determineComplexity (CustomCode.mk h5 ch ph pr co cf loc),
      selectTemplate (determineComplexity (CustomCode.mk h5 ch ph pr co cf loc))) := by
  by_cases h1 : (h5 || ch || ph) = true
  · have h1' : (h5 || ch || ph || decide (loc > 300)) = true := by
      simp only [Bool.or_eq_true] at h1 ⊢
      tauto
    simp [determineComplexity, selectTemplate, h1, h1']
  · have h1f : (h5 || ch || ph) = false := by simpa using h1
    by_cases h2 : loc > 300
    · simp [determineComplexity, selectTemplate, h1f, h2]
    · by_cases h3 : (pr || co || decide (cf.length > 2)) = true
      · simp [determineComplexity, selectTemplate, h1f, h2, h3]
      · have h3f : (pr || co || decide (cf.length > 2)) = false := by simpa using h3
        simp [determineComplexity, selectTemplate, h1f, h2, h3f]

/-- C5 amended: the browser classifier agrees with the command-line
classifier — same five flags, same label list, same tier and template —
on every text on which their probes cannot diverge: no `nodeDecoration`
occurrence without the other phase markers, no `common: {` declaration in a
text lacking `init`, and no top-level `function` declarations (which only
the command-line variant counts). -/
theorem browser_cli_classifier_agree (content : List Char)
    (hdec : jsIncludes content "nodeDecoration".toList = true →
      (jsIncludes content "nodeSubSection".toList ||
        jsIncludes content "nodeSection".toList) = true)
    (hinit : (jsIncludes content "common".toList &&
        (rxSearch commonDeclRx content).isSome) = true →
      jsIncludes content "init".toList = true)
    (hfns : fnDecls content = []) :
    browserAnalyze content =
      { hasH5P := (analyzeJavaScript content).hasH5P
        hasCharacters := (analyzeJavaScript content).hasCharacters
        hasPhaseManagement := (analyzeJavaScript content).hasPhaseManagement
        hasPrintContent := (analyzeJavaScript content).hasPrintContent
        hasCommonInit := (analyzeJavaScript content).hasCommonInit
        customFunctions := (analyzeJavaScript content).customFunctions
        linesOfCode := (analyzeJavaScript content).linesOfCode
        complexity := determineComplexity (analyzeJavaScript content)
        template := selectTemplate (determineComplexity (analyzeJavaScript content)) } := by
  have ephase : (jsIncludes content "nodeSubSection".toList ||
      jsIncludes content "nodeSection".toList ||
      jsIncludes content "nodeDecoration".toList) =
      (jsIncludes content "nodeSubSection".toList ||
        jsIncludes content "nodeSection".toList) := by
    cases hd : jsIncludes content "nodeDecoration".toList with
    | false => simp only [hd, Bool.or_false]
    | true =>
      simp only [hd, Bool.or_true]
      exact (hdec hd).symm
  have ecommon : (jsIncludes content "common".toList &&
      jsIncludes content "init".toList &&
      (rxSearch commonDeclRx content).isSome) =
      (jsIncludes content "common".toList && (rxSearch commonDeclRx content).isSome) := by
    cases h1 : jsIncludes content "common".toList with
    | false => simp only [h1, Bool.false_and]
    | true =>
      cases hm : (rxSearch commonDeclRx content).isSome with
      | false => simp only [h1, hm, Bool.and_false]
      | true =>
        have h2 := hinit (by rw [h1, hm]; rfl)
        simp only [h1, hm, h2, Bool.and_self, Bool.true_and]
  simp only [browserAnalyze, analyzeJavaScript, hfns, List.map_nil, List.append_nil,
    ephase, ecommon]
  rw [browser_tier_core]

/-- Concrete instance of `browser_cli_classifier_agree` at the text
`printContent function`: the hypotheses hold there and both classifiers
yield the print flag, tier moderate, template `base`. -/
theorem browser_cli_classifier_agree_witness :
    (jsIncludes "printContent function".toList "nodeDecoration".toList = true →
      (jsIncludes "printContent function".toList "nodeSubSection".toList ||
        jsIncludes "printContent function".toList "nodeSection".toList) = true) ∧
    ((jsIncludes "printContent function".toList "common".toList &&
        (rxSearch commonDeclRx "printContent function".toList).isSome) = true →
      jsIncludes "printContent function".toList "init".toList = true) ∧
    (fnDecls "printContent function".toList = []) ∧
    browserAnalyze "printContent function".toList =
      { hasH5P := (analyzeJavaScript "printContent function".toList).hasH5P
        hasCharacters := (analyzeJavaScript "printContent function".toList).hasCharacters
        hasPhaseManagement :=
          (analyzeJavaScript "printContent function".toList).hasPhaseManagement
        hasPrintContent := (analyzeJavaScript "printContent function".toList).hasPrintContent
        hasCommonInit := (analyzeJavaScript "printContent function".toList).hasCommonInit
        customFunctions := (analyzeJavaScript "printContent function".toList).customFunctions
        linesOfCode := (analyzeJavaScript "printContent function".toList).linesOfCode
        complexity := determineComplexity (analyzeJavaScript "printContent function".toList)
        template := selectTemplate
          (determineComplexity (analyzeJavaScript "printContent function".toList)) } :=
  ⟨by decide, by decide, by decide,
    browser_cli_classifier_agree "printContent function".toList
      (by decide) (by decide) (by decide)⟩

/-! ## Lemmas about the splicer -/

/-- A member of a joined list is a contiguous substring of the join. -/
theorem sub_of_mem_joinSep (sep : List Char) :
    ∀ (L : List (List Char)) (l : List Char), l ∈ L → l <:+: joinSep sep L := by
  intro L
  induction L with
  | nil => intro l h; cases h
  | cons x rest ih =>
    intro l h
    cases rest with
    | nil =>
      have hx : l = x := by simpa using h
      subst hx
      exact List.infix_rfl
    | cons y t =>
      rcases List.mem_cons.mp h with rfl | h2
      · exact ⟨[], sep ++ joinSep sep (y :: t), by simp [joinSep]⟩
      · obtain ⟨u, v, huv⟩ := ih l h2
        refine ⟨x ++ sep ++ u, v, ?_⟩
        simp only [joinSep]
        rw [← huv]
        simp

/-- Substring-hood survives prepending. -/
theorem sub_append_left (l m pre : List Char) (h : l <:+: m) : l <:+: pre ++ m := by
  obtain ⟨u, v, huv⟩ := h
  exact ⟨pre ++ u, v, by rw [← huv]; simp⟩

/-- Substring-hood survives appending. -/
theorem sub_append_right (l m suf : List Char) (h : l <:+: m) : l <:+: m ++ suf := by
  obtain ⟨u, v, huv⟩ := h
  exact ⟨u, v ++ suf, by rw [← huv]; simp⟩

/-- The section code is a prefix of its comma-completed form. -/
theorem sub_ensureComma (c : List Char) : c <:+: ensureComma c := by
  unfold ensureComma
  split
  · exact List.infix_rfl
  · exact ⟨[], [','], by simp⟩

/-- The comma-completed form always ends in a comma. -/
theorem ensureComma_getLast (c : List Char) : (ensureComma c).getLast? = some ',' := by
  unfold ensureComma
  split
  · assumption
  · rw [List.getLast?_append_cons]
    rfl

/-- An extracted `after main code` section is spliced verbatim: its exact
text is a contiguous substring of the splicer's output. -/
theorem integrate_after_sub (tmpl : List Char) (secs : List Section) (s : Section)
    (hmem : s ∈ secs) (hloc : s.location = Location.afterMainCode) :
    s.code <:+: integrateCustomCode tmpl secs := by
  have hne : ¬ secs.isEmpty = true := by
    intro hemp
    rw [List.isEmpty_iff] at hemp
    subst hemp
    cases hmem
  have hmem2 : s ∈ secs.filter (fun s => decide (s.location = Location.afterMainCode)) :=
    List.mem_filter.mpr ⟨hmem, by rw [hloc]; rfl⟩
  have hne2 : (!(secs.filter
      (fun s => decide (s.location = Location.afterMainCode))).isEmpty) = true := by
    cases hf : (secs.filter (fun s => decide (s.location = Location.afterMainCode))).isEmpty
    · rfl
    · rw [List.isEmpty_iff] at hf
      rw [hf] at hmem2
      cases hmem2
  have hcode : s.code ∈ (secs.filter
      (fun s => decide (s.location = Location.afterMainCode))).map Section.code :=
    List.mem_map_of_mem Section.code hmem2
  have hjoin := sub_of_mem_joinSep "\n\n".toList _ s.code hcode
  simp only [integrateCustomCode]
  rw [if_neg hne, if_pos hne2]
  exact sub_append_right _ _ _ (sub_append_left _ _ _ hjoin)

/-- An extracted `myTheme object` section is spliced verbatim whenever the
`params` anchor pattern matches the template. -/
theorem integrate_myTheme_sub (tmpl : List Char) (secs : List Section) (s : Section)
    (i n : Nat) (hmem : s ∈ secs) (hloc : s.location = Location.myThemeObject)
    (hm : rxSearch paramsRx tmpl = some (i, n)) :
    s.code <:+: integrateCustomCode tmpl secs := by
  have hne : ¬ secs.isEmpty = true := by
    intro hemp
    rw [List.isEmpty_iff] at hemp
    subst hemp
    cases hmem
  have hmem2 : s ∈ secs.filter (fun s => decide (s.location = Location.myThemeObject)) :=
    List.mem_filter.mpr ⟨hmem, by rw [hloc]; rfl⟩
  have hne2 : (!(secs.filter
      (fun s => decide (s.location = Location.myThemeObject))).isEmpty) = true := by
    cases hf : (secs.filter (fun s => decide (s.location = Location.myThemeObject))).isEmpty
    · rfl
    · rw [List.isEmpty_iff] at hf
      rw [hf] at hmem2
      cases hmem2
  have hcode : ensureComma s.code ∈ (secs.filter
      (fun s => decide (s.location = Location.myThemeObject))).map
        (fun s => ensureComma s.code) :=
    List.mem_map_of_mem _ hmem2
  have hjoin : s.code <:+: joinSep "\n\n    ".toList ((secs.filter
      (fun s => decide (s.location = Location.myThemeObject))).map
        (fun s => ensureComma s.code)) :=
    (sub_ensureComma s.code).trans (sub_of_mem_joinSep _ _ _ hcode)
  have hres : s.code <:+:
      tmpl.take (i + n) ++ customFunctionsMarker ++
        joinSep "\n\n    ".toList ((secs.filter
          (fun s => decide (s.location = Location.myThemeObject))).map
            (fun s => ensureComma s.code)) ++ ['\n'] ++ tmpl.drop (i + n) :=
    sub_append_right _ _ _ (sub_append_right _ _ _ (sub_append_left _ _ _ hjoin))
  simp only [integrateCustomCode]
  rw [if_neg hne, if_pos hne2, hm]
  split
  · exact sub_append_right _ _ _ (sub_append_right _ _ _ (sub_append_right _ _ _ hres))
  · exact hres

/-- C6: every section the splicer actually inserts appears verbatim as one
contiguous substring of the output — an `after main code` section
unconditionally, a `myTheme object` section whenever the `params` anchor
pattern matches the template (the two conditions under which
`integrateCustomCode` inserts a section at all). -/
theorem spliced_sections_verbatim (tmpl : List Char) (secs : List Section) (s : Section)
    (hmem : s ∈ secs) :
    (s.location = Location.afterMainCode → s.code <:+: integrateCustomCode tmpl secs) ∧
    (s.location = Location.myThemeObject → ∀ i n, rxSearch paramsRx tmpl = some (i, n) →
      s.code <:+: integrateCustomCode tmpl secs) :=
  ⟨fun hloc => integrate_after_sub tmpl secs s hmem hloc,
   fun hloc i n hm => integrate_myTheme_sub tmpl secs s i n hmem hloc hm⟩

/-- Concrete instance of `spliced_sections_verbatim`: both an appended and a
container-inserted section appear verbatim in the spliced output of an
anchored template. -/
theorem spliced_sections_verbatim_witness :
    (vwAfterSec ∈ [vwAfterSec, vwMySec]) ∧
    (vwMySec ∈ [vwAfterSec, vwMySec]) ∧
    (rxSearch paramsRx vwTemplate = some (0, 36)) ∧
    (vwAfterSec.code <:+: integrateCustomCode vwTemplate [vwAfterSec, vwMySec]) ∧
    (vwMySec.code <:+: integrateCustomCode vwTemplate [vwAfterSec, vwMySec]) :=
  ⟨by decide, by decide, by decide,
    (spliced_sections_verbatim vwTemplate [vwAfterSec, vwMySec] vwAfterSec (by decide)).1
      (by decide),
    (spliced_sections_verbatim vwTemplate [vwAfterSec, vwMySec] vwMySec (by decide)).2
      (by decide) 0 36 (by decide)⟩

/-- C7 amended: when every section is container-bound, the list is
non-empty, and the `params` anchor pattern matches the template at
`(i, n)`, the splicer inserts the whole group at offset `i + n` — the end
of the *regex match*, which is the end of the `params` declaration only
when the lazy body match already reaches the declaration's true closing
brace (see `params_anchor_early_stop_cex`) — as one block: a single
provenance marker, the sections joined by a blank line plus indentation,
each ending in a comma (one appended when missing). -/
theorem containerInsert_splice_shape (tmpl : List Char) (secs : List Section) (i n : Nat)
    (hall : ∀ s ∈ secs, s.location = Location.myThemeObject)
    (hne : secs ≠ [])
    (hm : rxSearch paramsRx tmpl = some (i, n)) :
    integrateCustomCode tmpl secs =
      tmpl.take (i + n) ++ customFunctionsMarker ++
        joinSep "\n\n    ".toList (secs.map fun s => ensureComma s.code) ++ ['\n'] ++
        tmpl.drop (i + n) ∧
    ∀ s ∈ secs, (ensureComma s.code).getLast? = some ',' := by
  have hMy : secs.filter (fun s => decide (s.location = Location.myThemeObject)) = secs :=
    List.filter_eq_self.mpr (fun s hs => by rw [hall s hs]; rfl)
  have hAf : secs.filter (fun s => decide (s.location = Location.afterMainCode)) = [] :=
    List.filter_eq_nil_iff.mpr (fun s hs => by rw [hall s hs]; decide)
  have hemp : ¬ secs.isEmpty = true := by
    intro h
    exact hne (List.isEmpty_iff.mp h)
  constructor
  · simp only [integrateCustomCode]
    rw [if_neg hemp, hMy, hAf]
    have hne' : (!secs.isEmpty) = true := by
      cases h : secs.isEmpty
      · rfl
      · exact absurd h hemp
    rw [if_pos hne', hm]
    rfl
  · intro s _
    exact ensureComma_getLast s.code

/-- C7 counterexample: the lazy `[\s\S]*?}` of the anchor pattern stops at
the *first* closing brace followed by (whitespace, optional comma,
newline).  On a `params` function whose body contains an inner block, the
insertion lands inside the function body, not after the end of its
declaration: the template text up to the declaration's end is no longer a
prefix of the output, even though the section was inserted (the marker is
present). -/
theorem params_anchor_early_stop_cex :
    (rxSearch paramsRx
      "params : function (e) \x7b if (e) \x7b return 1;\n\x7d\nreturn 2; \x7d,\n".toList =
        some (0, 45)) ∧
    ¬ ("params : function (e) \x7b if (e) \x7b return 1;\n\x7d\nreturn 2; \x7d,\n".toList <+:
      integrateCustomCode
        "params : function (e) \x7b if (e) \x7b return 1;\n\x7d\nreturn 2; \x7d,\n".toList
        [Section.mk "printContent function".toList
          "pc: function() \x7b return 9; \x7d,".toList Location.myThemeObject]) ∧
    customFunctionsMarker <:+:
      integrateCustomCode
        "params : function (e) \x7b if (e) \x7b return 1;\n\x7d\nreturn 2; \x7d,\n".toList
        [Section.mk "printContent function".toList
          "pc: function() \x7b return 9; \x7d,".toList Location.myThemeObject] := by
  refine ⟨by decide, by decide, ?_⟩
  decide

/-- Concrete instance of `containerInsert_splice_shape` on an anchored
template and one comma-less section. -/
theorem containerInsert_splice_shape_witness :
    (∀ s ∈ [Section.mk "printContent function".toList
        "pc: function() \x7b return 9; \x7d".toList Location.myThemeObject],
      s.location = Location.myThemeObject) ∧
    ([Section.mk "printContent function".toList
        "pc: function() \x7b return 9; \x7d".toList Location.myThemeObject] ≠ []) ∧
    (rxSearch paramsRx "params : function () \x7b return 1; \x7d,\nEND".toList =
      some (0, 36)) ∧
    (integrateCustomCode "params : function () \x7b return 1; \x7d,\nEND".toList
        [Section.mk "printContent function".toList
          "pc: function() \x7b return 9; \x7d".toList Location.myThemeObject] =
      "params : function () \x7b return 1; \x7d,\nEND".toList.take (0 + 36) ++
        customFunctionsMarker ++
        joinSep "\n\n    ".toList
          ([Section.mk "printContent function".toList
            "pc: function() \x7b return 9; \x7d".toList Location.myThemeObject].map
              fun s => ensureComma s.code) ++ ['\n'] ++
        "params : function () \x7b return 1; \x7d,\nEND".toList.drop (0 + 36) ∧
      ∀ s ∈ [Section.mk "printContent function".toList
          "pc: function() \x7b return 9; \x7d".toList Location.myThemeObject],
        (ensureComma s.code).getLast? = some ',') := by
  refine ⟨by decide, by decide, by decide, ?_⟩
  have h := containerInsert_splice_shape
    "params : function () \x7b return 1; \x7d,\nEND".toList
    [Section.mk "printContent function".toList
      "pc: function() \x7b return 9; \x7d".toList Location.myThemeObject]
    0 36 (by decide) (by decide) (by decide)
  exact h

/-! ## Empty-section and all-flags-false no-op -/

/-- C8: the splicer returns the template exactly unchanged on an empty
section list, and the whole transform returns the template text and an
empty section-name list whenever all five feature flags are false
(whatever the complexity tier and script text). -/
theorem splice_noop_empty (tmpl : List Char) (a : JsAnalysis)
    (h5 : a.customCode.hasH5P = false)
    (hch : a.customCode.hasCharacters = false)
    (hph : a.customCode.hasPhaseManagement = false)
    (hpr : a.customCode.hasPrintContent = false)
    (hco : a.customCode.hasCommonInit = false) :
    integrateCustomCode tmpl [] = tmpl ∧ transformJS a tmpl = (tmpl, []) := by
  refine ⟨rfl, ?_⟩
  unfold transformJS
  split
  · cases hjs : a.jsContent.isEmpty with
    | true =>
      have hx : extractCustomCode a.jsContent a.customCode = none := by
        unfold extractCustomCode
        rw [if_pos hjs]
      rw [hx]
    | false =>
      have hx : extractCustomCode a.jsContent a.customCode = some ([], []) := by
        simp [extractCustomCode, h5, hch, hph, hpr, hco, hjs]
      rw [hx]
      rfl
  · rfl

/-- Concrete instance of `splice_noop_empty` on a complex-tier analysis
with no flags set. -/
theorem splice_noop_empty_witness :
    ((CustomCode.mk false false false false false [] 0).hasH5P = false) ∧
    ((CustomCode.mk false false false false false [] 0).hasCharacters = false) ∧
    ((CustomCode.mk false false false false false [] 0).hasPhaseManagement = false) ∧
    ((CustomCode.mk false false false false false [] 0).hasPrintContent = false) ∧
    ((CustomCode.mk false false false false false [] 0).hasCommonInit = false) ∧
    (integrateCustomCode "var t = 1;\n".toList [] = "var t = 1;\n".toList ∧
      transformJS (JsAnalysis.mk Complexity.complex "var x = 2;\n".toList
          (CustomCode.mk false false false false false [] 0))
        "var t = 1;\n".toList = ("var t = 1;\n".toList, [])) :=
  ⟨rfl, rfl, rfl, rfl, rfl,
    splice_noop_empty "var t = 1;\n".toList
      (JsAnalysis.mk Complexity.complex "var x = 2;\n".toList
        (CustomCode.mk false false false false false [] 0))
      rfl rfl rfl rfl rfl⟩

/-! ## Reported section names vs spliced sections -/

/-- C3 counterexample: with a moderate analysis whose script contains a
`printContent` function but a template lacking the `params` anchor, the
transformer reports `printContent()` in `customCodeSections` although
nothing was spliced — the output equals the template, which does not
contain the extracted code.  The reported list is the list of *extracted*
sections, not of sections actually inserted. -/
theorem customCodeSections_not_spliced_cex :
    (transformJS (JsAnalysis.mk Complexity.moderate
        "printContent: function() \x7b return 1; \x7d".toList
        (CustomCode.mk false false false true false [] 0))
      "var myTheme = \x7b\x7d;".toList).2 = ["printContent()".toList] ∧
    (transformJS (JsAnalysis.mk Complexity.moderate
        "printContent: function() \x7b return 1; \x7d".toList
        (CustomCode.mk false false false true false [] 0))
      "var myTheme = \x7b\x7d;".toList).1 = "var myTheme = \x7b\x7d;".toList ∧
    ¬ ("printContent: function() \x7b return 1; \x7d".toList <:+:
      "var myTheme = \x7b\x7d;".toList) := by
  refine ⟨by decide, by decide, by decide⟩

/-- C3 amended: `customCodeSections` is exactly the name list produced by
extraction; every extracted `after main code` section is really spliced
into the output, and every extracted `myTheme object` section is spliced
provided the template matches the `params` anchor pattern — a name can
outlive its code only when the anchor is absent. -/
theorem customCodeSections_extraction_spec (a : JsAnalysis) (tmpl : List Char)
    (h : a.complexity ≠ Complexity.simple)
    (secs : List Section) (names : List (List Char))
    (hx : extractCustomCode a.jsContent a.customCode = some (secs, names)) :
    (transformJS a tmpl).2 = names ∧
    (∀ s ∈ secs, s.location = Location.afterMainCode →
      s.code <:+: (transformJS a tmpl).1) ∧
    (∀ i n, rxSearch paramsRx tmpl = some (i, n) →
      ∀ s ∈ secs, s.location = Location.myThemeObject →
        s.code <:+: (transformJS a tmpl).1) := by
  unfold transformJS
  rw [if_pos h, hx]
  exact ⟨rfl,
    fun s hs hl => integrate_after_sub tmpl secs s hs hl,
    fun i n hm s hs hl => integrate_myTheme_sub tmpl secs s i n hs hl hm⟩

/-- Concrete instance of `customCodeSections_extraction_spec`: a
print-helper script against an anchored template reports `printContent()`
and really splices the extracted code. -/
theorem customCodeSections_extraction_spec_witness :
    ((JsAnalysis.mk Complexity.moderate
        "printContent: function() \x7b return 1; \x7d".toList
        (CustomCode.mk false false false true false [] 0)).complexity ≠
      Complexity.simple) ∧
    (extractCustomCode "printContent: function() \x7b return 1; \x7d".toList
        (CustomCode.mk false false false true false [] 0) =
      some ([Section.mk "printContent function".toList
              "printContent: function() \x7b return 1; \x7d".toList
              Location.myThemeObject],
            ["printContent()".toList])) ∧
    ((transformJS (JsAnalysis.mk Complexity.moderate
        "printContent: function() \x7b return 1; \x7d".toList
        (CustomCode.mk false false false true false [] 0)) vwTemplate).2 =
      ["printContent()".toList] ∧
    (∀ s ∈ [Section.mk "printContent function".toList
              "printContent: function() \x7b return 1; \x7d".toList
              Location.myThemeObject], s.location = Location.afterMainCode →
      s.code <:+: (transformJS (JsAnalysis.mk Complexity.moderate
        "printContent: function() \x7b return 1; \x7d".toList
        (CustomCode.mk false false false true false [] 0)) vwTemplate).1) ∧
    (∀ i n, rxSearch paramsRx vwTemplate = some (i, n) →
      ∀ s ∈ [Section.mk "printContent function".toList
              "printContent: function() \x7b return 1; \x7d".toList
              Location.myThemeObject], s.location = Location.myThemeObject →
        s.code <:+: (transformJS (JsAnalysis.mk Complexity.moderate
          "printContent: function() \x7b return 1; \x7d".toList
          (CustomCode.mk false false false true false [] 0)) vwTemplate).1)) :=
  ⟨by decide, by decide,
    customCodeSections_extraction_spec
      (JsAnalysis.mk Complexity.moderate
        "printContent: function() \x7b return 1; \x7d".toList
        (CustomCode.mk false false false true false [] 0))
      vwTemplate (by decide)
      [Section.mk "printContent function".toList
        "printContent: function() \x7b return 1; \x7d".toList Location.myThemeObject]
      ["printContent()".toList] (by decide)⟩

/-! ## Extraction failure policy (skip silently, keep the rest) -/

/-- Anything in a feature's label contribution is that feature's label. -/
theorem mem_optLab {x : List Char} {b : Bool} {r : Option (List Char)} {lab : List Char}
    (h : x ∈ optLab b r lab) : x = lab := by
  unfold optLab at h
  split at h
  · split at h
    · simpa using h
    · cases h
  · cases h

/-- A flagged, successfully extracted feature contributes its section. -/
theorem optSec_mem_self (b : Bool) (r : Option (List Char)) (nm : List Char)
    (loc : Location) (c : List Char) (hb : b = true) (hr : r = some c) :
    Section.mk nm c loc ∈ optSec b r nm loc := by
  subst hb
  subst hr
  simp [optSec]

/-- A flagged, successfully extracted feature contributes its label. -/
theorem optLab_mem_self (b : Bool) (r : Option (List Char)) (lab : List Char)
    (c : List Char) (hb : b = true) (hr : r = some c) : lab ∈ optLab b r lab := by
  subst hb
  subst hr
  simp [optLab]

/-- A feature whose extractor failed contributes no label. -/
theorem optLab_none (b : Bool) (r : Option (List Char)) (lab : List Char)
    (hr : r = none) : optLab b r lab = [] := by
  subst hr
  unfold optLab
  split <;> rfl

/-- A feature whose extractor failed contributes no section. -/
theorem optSec_none (b : Bool) (r : Option (List Char)) (nm : List Char) (loc : Location)
    (hr : r = none) : optSec b r nm loc = [] := by
  subst hr
  unfold optSec
  split <;> rfl

/-- A text distinct from a feature's label is not among its contribution. -/
theorem not_mem_optLab {x : List Char} (b : Bool) (r : Option (List Char))
    {lab : List Char} (hne : x ≠ lab) : x ∉ optLab b r lab :=
  fun h => hne (mem_optLab h)

/-- Anything in a feature's section contribution bears that feature's name. -/
theorem mem_optSec_name {s : Section} {b : Bool} {r : Option (List Char)}
    {nm : List Char} {loc : Location} (h : s ∈ optSec b r nm loc) : s.name = nm := by
  unfold optSec at h
  split at h
  · split at h
    · rw [List.mem_singleton] at h
      subst h
      rfl
    · cases h
  · cases h

/-- On a non-empty script, `extractCustomCode` is exactly the concatenation
of the five per-feature contributions, sections and labels alike. -/
theorem extractCustomCode_parts (oldJS : List Char) (custom : CustomCode)
    (hne : oldJS.isEmpty = false) :
    extractCustomCode oldJS custom = some
      (optSec (featFlag Feature.print custom) (featRes Feature.print oldJS)
          (featName Feature.print) (featLoc Feature.print) ++
        (optSec (featFlag Feature.commonInit custom) (featRes Feature.commonInit oldJS)
          (featName Feature.commonInit) (featLoc Feature.commonInit) ++
        (optSec (featFlag Feature.characters custom) (featRes Feature.characters oldJS)
          (featName Feature.characters) (featLoc Feature.characters) ++
        (optSec (featFlag Feature.h5p custom) (featRes Feature.h5p oldJS)
          (featName Feature.h5p) (featLoc Feature.h5p) ++
        optSec (featFlag Feature.phase custom) (featRes Feature.phase oldJS)
          (featName Feature.phase) (featLoc Feature.phase)))),
       optLab (featFlag Feature.print custom) (featRes Feature.print oldJS)
          (featLabel Feature.print) ++
        (optLab (featFlag Feature.commonInit custom) (featRes Feature.commonInit oldJS)
          (featLabel Feature.commonInit) ++
        (optLab (featFlag Feature.characters custom) (featRes Feature.characters oldJS)
          (featLabel Feature.characters) ++
        (optLab (featFlag Feature.h5p custom) (featRes Feature.h5p oldJS)
          (featLabel Feature.h5p) ++
        optLab (featFlag Feature.phase custom) (featRes Feature.phase oldJS)
          (featLabel Feature.phase))))) := by
  have hne' : ¬ oldJS.isEmpty = true := by rw [hne]; exact Bool.false_ne_true
  have part : ∀ (b : Bool) (r : Option (List Char)) (nm : List Char) (loc : Location)
      (lab : List Char),
      (if b then
        match r with
        | some c => ([Section.mk nm c loc], [lab])
        | none => (([] : List Section), ([] : List (List Char)))
       else ([], [])) = (optSec b r nm loc, optLab b r lab) := by
    intro b r nm loc lab
    cases b <;> cases r <;> rfl
  unfold extractCustomCode
  rw [if_neg hne']
  simp only [part, featFlag, featRes, featName, featLabel, featLoc, List.append_assoc]

/-- C9: extraction is total and skips silently — for every flagged feature
whose extractor fails, the section and its label are simply absent from the
result, while every flagged feature whose extractor succeeds still
contributes its section and label.  (`extractCustomCode` is a total
function of the script text and flags; there is no throwing path.) -/
theorem extract_skip_policy (oldJS : List Char) (custom : CustomCode)
    (hne : oldJS.isEmpty = false) (secs : List Section) (names : List (List Char))
    (hx : extractCustomCode oldJS custom = some (secs, names)) (feat : Feature) :
    (featFlag feat custom = true → ∀ c, featRes feat oldJS = some c →
      Section.mk (featName feat) c (featLoc feat) ∈ secs ∧ featLabel feat ∈ names) ∧
    (featFlag feat custom = true → featRes feat oldJS = none →
      featLabel feat ∉ names ∧ ∀ s ∈ secs, s.name ≠ featName feat) := by
  rw [extractCustomCode_parts oldJS custom hne] at hx
  have hpair := Option.some.inj hx
  injection hpair with hs hn
  subst hs
  subst hn
  constructor
  · intro hf c hc
    cases feat with
    | print =>
      exact ⟨List.mem_append_left _ (optSec_mem_self _ _ _ _ c hf hc),
        List.mem_append_left _ (optLab_mem_self _ _ _ c hf hc)⟩
    | commonInit =>
      exact ⟨List.mem_append_right _
          (List.mem_append_left _ (optSec_mem_self _ _ _ _ c hf hc)),
        List.mem_append_right _
          (List.mem_append_left _ (optLab_mem_self _ _ _ c hf hc))⟩
    | characters =>
      exact ⟨List.mem_append_right _ (List.mem_append_right _
          (List.mem_append_left _ (optSec_mem_self _ _ _ _ c hf hc))),
        List.mem_append_right _ (List.mem_append_right _
          (List.mem_append_left _ (optLab_mem_self _ _ _ c hf hc)))⟩
    | h5p =>
      exact ⟨List.mem_append_right _ (List.mem_append_right _ (List.mem_append_right _
          (List.mem_append_left _ (optSec_mem_self _ _ _ _ c hf hc)))),
        List.mem_append_right _ (List.mem_append_right _ (List.mem_append_right _
          (List.mem_append_left _ (optLab_mem_self _ _ _ c hf hc))))⟩
    | phase =>
      exact ⟨List.mem_append_right _ (List.mem_append_right _ (List.mem_append_right _
          (List.mem_append_right _ (optSec_mem_self _ _ _ _ c hf hc)))),
        List.mem_append_right _ (List.mem_append_right _ (List.mem_append_right _
          (List.mem_append_right _ (optLab_mem_self _ _ _ c hf hc))))⟩
  · intro hf hres
    constructor
    · intro hmem
      cases feat with
      | print =>
        rcases List.mem_append.mp hmem with h1 | h
        · rw [optLab_none _ _ _ hres] at h1
          cases h1
        rcases List.mem_append.mp h with h2 | h
        · exact not_mem_optLab _ _ (by decide) h2
        rcases List.mem_append.mp h with h3 | h
        · exact not_mem_optLab _ _ (by decide) h3
        rcases List.mem_append.mp h with h4 | h5
        · exact not_mem_optLab _ _ (by decide) h4
        · exact not_mem_optLab _ _ (by decide) h5
      | commonInit =>
        rcases List.mem_append.mp hmem with h1 | h
        · exact not_mem_optLab _ _ (by decide) h1
        rcases List.mem_append.mp h with h2 | h
        · rw [optLab_none _ _ _ hres] at h2
          cases h2
        rcases List.mem_append.mp h with h3 | h
        · exact not_mem_optLab _ _ (by decide) h3
        rcases List.mem_append.mp h with h4 | h5
        · exact not_mem_optLab _ _ (by decide) h4
        · exact not_mem_optLab _ _ (by decide) h5
      | characters =>
        rcases List.mem_append.mp hmem with h1 | h
        · exact not_mem_optLab _ _ (by decide) h1
        rcases List.mem_append.mp h with h2 | h
        · exact not_mem_optLab _ _ (by decide) h2
        rcases List.mem_append.mp h with h3 | h
        · rw [optLab_none _ _ _ hres] at h3
          cases h3
        rcases List.mem_append.mp h with h4 | h5
        · exact not_mem_optLab _ _ (by decide) h4
        · exact not_mem_optLab _ _ (by decide) h5
      | h5p =>
        rcases List.mem_append.mp hmem with h1 | h
        · exact not_mem_optLab _ _ (by decide) h1
        rcases List.mem_append.mp h with h2 | h
        · exact not_mem_optLab _ _ (by decide) h2
        rcases List.mem_append.mp h with h3 | h
        · exact not_mem_optLab _ _ (by decide) h3
        rcases List.mem_append.mp h with h4 | h5
        · rw [optLab_none _ _ _ hres] at h4
          cases h4
        · exact not_mem_optLab _ _ (by decide) h5
      | phase =>
        rcases List.mem_append.mp hmem with h1 | h
        · exact not_mem_optLab _ _ (by decide) h1
        rcases List.mem_append.mp h with h2 | h
        · exact not_mem_optLab _ _ (by decide) h2
        rcases List.mem_append.mp h with h3 | h
        · exact not_mem_optLab _ _ (by decide) h3
        rcases List.mem_append.mp h with h4 | h5
        · exact not_mem_optLab _ _ (by decide) h4
        · rw [optLab_none _ _ _ hres] at h5
          cases h5
    · intro s hs
      cases feat with
      | print =>
        rcases List.mem_append.mp hs with h1 | h
        · rw [optSec_none _ _ _ _ hres] at h1
          cases h1
        rcases List.mem_append.mp h with h2 | h
        · rw [mem_optSec_name h2]; decide
        rcases List.mem_append.mp h with h3 | h
        · rw [mem_optSec_name h3]; decide
        rcases List.mem_append.mp h with h4 | h5
        · rw [mem_optSec_name h4]; decide
        · rw [mem_optSec_name h5]; decide
      | commonInit =>
        rcases List.mem_append.mp hs with h1 | h
        · rw [mem_optSec_name h1]; decide
        rcases List.mem_append.mp h with h2 | h
        · rw [optSec_none _ _ _ _ hres] at h2
          cases h2
        rcases List.mem_append.mp h with h3 | h
        · rw [mem_optSec_name h3]; decide
        rcases List.mem_append.mp h with h4 | h5
        · rw [mem_optSec_name h4]; decide
        · rw [mem_optSec_name h5]; decide
      | characters =>
        rcases List.mem_append.mp hs with h1 | h
        · rw [mem_optSec_name h1]; decide
        rcases List.mem_append.mp h with h2 | h
        · rw [mem_optSec_name h2]; decide
        rcases List.mem_append.mp h with h3 | h
        · rw [optSec_none _ _ _ _ hres] at h3
          cases h3
        rcases List.mem_append.mp h with h4 | h5
        · rw [mem_optSec_name h4]; decide
        · rw [mem_optSec_name h5]; decide
      | h5p =>
        rcases List.mem_append.mp hs with h1 | h
        · rw [mem_optSec_name h1]; decide
        rcases List.mem_append.mp h with h2 | h
        · rw [mem_optSec_name h2]; decide
        rcases List.mem_append.mp h with h3 | h
        · rw [mem_optSec_name h3]; decide
        rcases List.mem_append.mp h with h4 | h5
        · rw [optSec_none _ _ _ _ hres] at h4
          cases h4
        · rw [mem_optSec_name h5]; decide
      | phase =>
        rcases List.mem_append.mp hs with h1 | h
        · rw [mem_optSec_name h1]; decide
        rcases List.mem_append.mp h with h2 | h
        · rw [mem_optSec_name h2]; decide
        rcases List.mem_append.mp h with h3 | h
        · rw [mem_optSec_name h3]; decide
        rcases List.mem_append.mp h with h4 | h5
        · rw [mem_optSec_name h4]; decide
        · rw [optSec_none _ _ _ _ hres] at h5
          cases h5

/-- Concrete instance of `extract_skip_policy`: with the print helper and
H5P both flagged but only the H5P pattern present, the extractor returns
the H5P section and label and silently omits the print section. -/
theorem extract_skip_policy_witness :
    (skipWitnessJS.isEmpty = false) ∧
    (extractCustomCode skipWitnessJS skipWitnessCC = some
      ([Section.mk "H5P iframe resizer".toList
          "// H5P iframe Resizer\n(function () \x7b h(); \x7d)();".toList
          Location.afterMainCode],
       ["H5P iframe resizer".toList])) ∧
    (featFlag Feature.h5p skipWitnessCC = true) ∧
    (featRes Feature.h5p skipWitnessJS =
      some "// H5P iframe Resizer\n(function () \x7b h(); \x7d)();".toList) ∧
    (featFlag Feature.print skipWitnessCC = true) ∧
    (featRes Feature.print skipWitnessJS = none) ∧
    (Section.mk (featName Feature.h5p)
        "// H5P iframe Resizer\n(function () \x7b h(); \x7d)();".toList
        (featLoc Feature.h5p) ∈
      [Section.mk "H5P iframe resizer".toList
        "// H5P iframe Resizer\n(function () \x7b h(); \x7d)();".toList
        Location.afterMainCode] ∧
      featLabel Feature.h5p ∈ ["H5P iframe resizer".toList]) ∧
    (featLabel Feature.print ∉ ["H5P iframe resizer".toList] ∧
      ∀ s ∈ [Section.mk "H5P iframe resizer".toList
          "// H5P iframe Resizer\n(function () \x7b h(); \x7d)();".toList
          Location.afterMainCode], s.name ≠ featName Feature.print) :=
  ⟨by decide, by decide, by decide, by decide, by decide, by decide,
    (extract_skip_policy skipWitnessJS skipWitnessCC (by decide)
        [Section.mk "H5P iframe resizer".toList
          "// H5P iframe Resizer\n(function () \x7b h(); \x7d)();".toList
          Location.afterMainCode]
        ["H5P iframe resizer".toList] (by decide) Feature.h5p).1
      (by decide)
      "// H5P iframe Resizer\n(function () \x7b h(); \x7d)();".toList (by decide),
    (extract_skip_policy skipWitnessJS skipWitnessCC (by decide)
        [Section.mk "H5P iframe resizer".toList
          "// H5P iframe Resizer\n(function () \x7b h(); \x7d)();".toList
          Location.afterMainCode]
        ["H5P iframe resizer".toList] (by decide) Feature.print).2
      (by decide) (by decide)⟩

/-! ## The generated config.xml -/

/-- Characters of a replacement result come from the replacement text or
are original characters distinct from the replaced one. -/
theorem mem_repChar {c a : Char} {sub l : List Char} (h : c ∈ repChar a sub l) :
    c ∈ sub ∨ (c ∈ l ∧ c ≠ a) := by
  induction l with
  | nil => cases h
  | cons x xs ih =>
    simp only [repChar] at h
    by_cases hxa : x = a
    · rw [if_pos hxa] at h
      rcases List.mem_append.mp h with h1 | h2
      · exact Or.inl h1
      · rcases ih h2 with h3 | ⟨h4, h5⟩
        · exact Or.inl h3
        · exact Or.inr ⟨List.mem_cons_of_mem _ h4, h5⟩
    · rw [if_neg hxa] at h
      rcases List.mem_cons.mp h with rfl | h2
      · exact Or.inr ⟨List.mem_cons_self _ _, hxa⟩
      · rcases ih h2 with h3 | ⟨h4, h5⟩
        · exact Or.inl h3
        · exact Or.inr ⟨List.mem_cons_of_mem _ h4, h5⟩

/-- No markup-significant character survives `escapeXml`: its output never
contains a raw `<`, `>`, `"` or `'`. -/
theorem escapeXml_no_markup (s : List Char) (c : Char) (h : c ∈ escapeXml s) :
    c ≠ '<' ∧ c ≠ '>' ∧ c ≠ '"' ∧ c ≠ '\'' := by
  unfold escapeXml at h
  rcases mem_repChar h with h1 | ⟨h, hq4⟩
  · refine ⟨?_, ?_, ?_, ?_⟩ <;> rintro rfl <;> exact absurd h1 (by decide)
  rcases mem_repChar h with h1 | ⟨h, hq3⟩
  · refine ⟨?_, ?_, ?_, ?_⟩ <;> rintro rfl <;> exact absurd h1 (by decide)
  rcases mem_repChar h with h1 | ⟨h, hq2⟩
  · refine ⟨?_, ?_, ?_, ?_⟩ <;> rintro rfl <;> exact absurd h1 (by decide)
  rcases mem_repChar h with h1 | ⟨h, hq1⟩
  · refine ⟨?_, ?_, ?_, ?_⟩ <;> rintro rfl <;> exact absurd h1 (by decide)
  rcases mem_repChar h with h1 | ⟨h, hq0⟩
  · refine ⟨?_, ?_, ?_, ?_⟩ <;> rintro rfl <;> exact absurd h1 (by decide)
  · exact ⟨hq1, hq2, hq3, hq4⟩

/-- On a present field, `keepTruthy` keeps a non-empty value only. -/
theorem keepTruthy_some (v : List Char) :
    keepTruthy (some v) = if v.isEmpty then none else some v := rfl

/-- On a present field, `jsOrDefault` falls back exactly on the empty value. -/
theorem jsOrDefault_some (v d : List Char) :
    jsOrDefault (some v) d = if v.isEmpty then d else v := rfl

/-- Every emitted field's line is a contiguous substring of the config. -/
theorem emitField_sub (styleName : List Char) (md : Metadata) (f : ConfigField)
    (hf : f ∈ emittedFields styleName md) :
    emitField f <:+: generateNewConfig styleName md := by
  unfold generateNewConfig
  exact sub_append_right _ _ _ (sub_append_left _ _ _
    (List.infix_of_mem_flatten (List.mem_map_of_mem emitField hf)))

/-- C10: for every old theme metadata and style name, the regenerated
config.xml contains the literal `compatibility` 3.0 line and `version` 2025
line, contains a `downloadable` field, emits the optional `author-url`
field exactly when the old value is a non-empty string, and passes every
emitted field value through `escapeXml`, whose output contains no raw
markup character. -/
theorem generateNewConfig_invariants (styleName : List Char) (theme : ThemeXml) :
    ("    <compatibility>3.0</compatibility>\n".toList <:+:
      generateNewConfig styleName (extractMetadata theme)) ∧
    ("    <version>2025</version>\n".toList <:+:
      generateNewConfig styleName (extractMetadata theme)) ∧
    ("<downloadable>".toList <:+:
      generateNewConfig styleName (extractMetadata theme)) ∧
    ((∃ f ∈ emittedFields styleName (extractMetadata theme),
        f.key = "author-url".toList) ↔ ∃ v, theme.authorUrl = some v ∧ v ≠ []) ∧
    (∀ f ∈ emittedFields styleName (extractMetadata theme),
      emitField f = "    <".toList ++ f.key ++ ">".toList ++ escapeXml f.value ++
        "</".toList ++ f.key ++ ">\n".toList ∧
      ∀ c ∈ escapeXml f.value, c ≠ '<' ∧ c ≠ '>' ∧ c ≠ '"' ∧ c ≠ '\'') := by
  refine ⟨?_, ?_, ?_, ?_, ?_⟩
  · have hmem : ConfigField.mk "compatibility".toList "3.0".toList false ∈
        emittedFields styleName (extractMetadata theme) := by
      unfold emittedFields
      refine List.mem_filter.mpr ⟨?_, rfl⟩
      unfold configFields
      exact List.mem_cons_of_mem _ (List.mem_cons_of_mem _ (List.mem_cons_of_mem _
        (List.mem_cons_self _ _)))
    have h := emitField_sub styleName (extractMetadata theme) _ hmem
    have he : emitField (ConfigField.mk "compatibility".toList "3.0".toList false) =
        "    <compatibility>3.0</compatibility>\n".toList := by decide
    rw [he] at h
    exact h
  · have hval : ConfigField.mk "version".toList
        (jsOrDefault (extractMetadata theme).version "2025".toList) false =
        ConfigField.mk "version".toList "2025".toList false := rfl
    have hmem : ConfigField.mk "version".toList "2025".toList false ∈
        emittedFields styleName (extractMetadata theme) := by
      unfold emittedFields
      refine List.mem_filter.mpr ⟨?_, rfl⟩
      unfold configFields
      rw [← hval]
      exact List.mem_cons_of_mem _ (List.mem_cons_of_mem _ (List.mem_cons_self _ _))
    have h := emitField_sub styleName (extractMetadata theme) _ hmem
    have he : emitField (ConfigField.mk "version".toList "2025".toList false) =
        "    <version>2025</version>\n".toList := by decide
    rw [he] at h
    exact h
  · have hmem : ConfigField.mk "downloadable".toList
        (jsOrDefault (extractMetadata theme).downloadable "1".toList) false ∈
        emittedFields styleName (extractMetadata theme) := by
      unfold emittedFields
      refine List.mem_filter.mpr ⟨?_, rfl⟩
      unfold configFields
      exact List.mem_cons_of_mem _ (List.mem_cons_of_mem _ (List.mem_cons_of_mem _
        (List.mem_cons_of_mem _ (List.mem_cons_of_mem _ (List.mem_cons_of_mem _
        (List.mem_cons_of_mem _ (List.mem_cons_of_mem _ (List.mem_cons_of_mem _
        (List.mem_cons_self _ _)))))))))
    have h := emitField_sub styleName (extractMetadata theme) _ hmem
    have htag : "<downloadable>".toList <:+:
        emitField (ConfigField.mk "downloadable".toList
          (jsOrDefault (extractMetadata theme).downloadable "1".toList) false) := by
      refine ⟨"    ".toList, escapeXml (jsOrDefault (extractMetadata theme).downloadable
        "1".toList) ++ ("</downloadable>\n".toList), ?_⟩
      simp [emitField]
    exact htag.trans h
  · constructor
    · rintro ⟨f, hf, hkey⟩
      obtain ⟨hmem, hp⟩ := List.mem_filter.mp hf
      unfold configFields at hmem
      simp only [List.mem_cons, List.not_mem_nil, or_false] at hmem
      rcases hmem with rfl | rfl | rfl | rfl | rfl | rfl | rfl | rfl | rfl | rfl
      · exact absurd hkey (show ¬("name".toList = "author-url".toList) by decide)
      · exact absurd hkey (show ¬("title".toList = "author-url".toList) by decide)
      · exact absurd hkey (show ¬("version".toList = "author-url".toList) by decide)
      · exact absurd hkey (show ¬("compatibility".toList = "author-url".toList) by decide)
      · exact absurd hkey (show ¬("author".toList = "author-url".toList) by decide)
      · -- the author-url entry: its filter condition forces a non-empty value
        have hval : (jsOrDefault (extractMetadata theme).authorUrl []).isEmpty = false := by
          have hp' : (!(jsOrDefault (extractMetadata theme).authorUrl []).isEmpty) = true := hp
          cases hE : (jsOrDefault (extractMetadata theme).authorUrl []).isEmpty
          · rfl
          · rw [hE] at hp'
            exact absurd hp' (by decide)
        have hau : (extractMetadata theme).authorUrl = keepTruthy theme.authorUrl := rfl
        cases hat : theme.authorUrl with
        | none =>
          rw [hau, hat] at hval
          exact absurd hval (by decide)
        | some v =>
          rw [hau, hat, keepTruthy_some] at hval
          by_cases hv : v.isEmpty = true
          · rw [if_pos hv] at hval
            exact absurd hval (by decide)
          · refine ⟨v, rfl, ?_⟩
            intro hnil
            subst hnil
            exact hv rfl
      · exact absurd hkey (show ¬("license".toList = "author-url".toList) by decide)
      · exact absurd hkey (show ¬("license-url".toList = "author-url".toList) by decide)
      · exact absurd hkey (show ¬("description".toList = "author-url".toList) by decide)
      · exact absurd hkey (show ¬("downloadable".toList = "author-url".toList) by decide)
    · rintro ⟨v, hat, hvne⟩
      have hv : v.isEmpty = false := by
        cases v with
        | nil => exact absurd rfl hvne
        | cons a t => rfl
      have hau : (extractMetadata theme).authorUrl = some v := by
        show keepTruthy theme.authorUrl = some v
        rw [hat, keepTruthy_some]
        rw [if_neg (by rw [hv]; exact Bool.false_ne_true)]
      refine ⟨ConfigField.mk "author-url".toList
        (jsOrDefault (extractMetadata theme).authorUrl []) true, ?_, rfl⟩
      unfold emittedFields
      refine List.mem_filter.mpr ⟨?_, ?_⟩
      · unfold configFields
        exact List.mem_cons_of_mem _ (List.mem_cons_of_mem _ (List.mem_cons_of_mem _
          (List.mem_cons_of_mem _ (List.mem_cons_of_mem _ (List.mem_cons_self _ _)))))
      · show (!(true && (jsOrDefault (extractMetadata theme).authorUrl []).isEmpty)) = true
        rw [hau, jsOrDefault_some]
        rw [if_neg (by rw [hv]; exact Bool.false_ne_true)]
        rw [Bool.true_and, hv]
        rfl
  · intro f _
    exact ⟨rfl, fun c hc => escapeXml_no_markup f.value c hc⟩

end StyleConv
